import Mathlib

/-!
Verification of pdf-form-builder: field geometry and field-store operations

A shallow embedding of the editing logic of `PDFFormBuilder.jsx`, `FormField.jsx` and
`PropertiesPanel.jsx`, and theorems about it.

Conventions of the embedding.

* A JavaScript number is a `JSNumber`: an exact rational in place of a binary64 double,
  or `NaN`, or one of the two infinities. There is no signed zero: a division of a
  non-zero number by zero takes the sign of the numerator.
* A property that a record may lack is an `Option`; `none` is `undefined`.
  `toNumber` is the conversion the arithmetic operators and `Math.min`/`Math.max`
  apply to their operands (`undefined` becomes `NaN`).
* Quantities that the browser always reports as finite numbers (pointer coordinates,
  bounding rectangles, scroll offsets) and the zoom scale are rationals.
* React state is an explicit `EditorState`; a handler is a function from the state
  (and the event) to the next state, or to the replacement records it hands to
  `onChange`. A handler that can throw returns `Except JSError`.
* The container width `parent.width` and the grid size `gridSize`, which `FormField.jsx`
  reads without defining them, are parameters (required configuration inputs). The
  identifier `fields`, which the distribution handlers read, is bound by nothing in the
  file: its binding is an `Option`, `none` in the file as it is, and reading it unbound
  throws a `ReferenceError`.
-/

namespace PdfFormBuilder

/-! ## Numbers -/

/-- JavaScript number: a rational, `NaN`, `Infinity` or `-Infinity`. -/
inductive JSNumber where
  | num (q : ℚ)
  | nan
  | posInf
  | negInf
  deriving DecidableEq

namespace JSNumber

/-- Sign of a number as a rational (`0` for zero and for `NaN`). -/
def sign : JSNumber → ℚ
  | num q => q
  | nan => 0
  | posInf => 1
  | negInf => -1

/-- Infinity carrying the sign of `q`; `NaN` when `q` is zero. -/
def ofSign (q : ℚ) : JSNumber :=
  if q = 0 then nan else if 0 < q then posInf else negInf

/-- Unary minus. -/
def neg : JSNumber → JSNumber
  | num q => num (-q)
  | nan => nan
  | posInf => negInf
  | negInf => posInf

/-- The `+` operator on numbers. -/
def add : JSNumber → JSNumber → JSNumber
  | nan, _ => nan
  | _, nan => nan
  | num a, num b => num (a + b)
  | posInf, negInf => nan
  | negInf, posInf => nan
  | posInf, _ => posInf
  | _, posInf => posInf
  | negInf, _ => negInf
  | _, negInf => negInf

/-- The binary `-` operator. -/
def sub (a b : JSNumber) : JSNumber := add a (neg b)

/-- The `*` operator. -/
def mul : JSNumber → JSNumber → JSNumber
  | nan, _ => nan
  | _, nan => nan
  | num a, num b => num (a * b)
  | a, b => ofSign (sign a * sign b)

/-- The `/` operator. -/
def div : JSNumber → JSNumber → JSNumber
  | nan, _ => nan
  | _, nan => nan
  | num a, num b => if b = 0 then ofSign a else num (a / b)
  | num _, _ => num 0
  | a, num b => if b = 0 then a else ofSign (sign a * b)
  | _, _ => nan

instance : Add JSNumber := ⟨add⟩
instance : Sub JSNumber := ⟨sub⟩
instance : Mul JSNumber := ⟨mul⟩
instance : Div JSNumber := ⟨div⟩

/-- Two-argument `Math.min`: `NaN` if either argument is `NaN`. -/
def min2 : JSNumber → JSNumber → JSNumber
  | nan, _ => nan
  | _, nan => nan
  | num a, num b => num (min a b)
  | negInf, _ => negInf
  | _, negInf => negInf
  | posInf, b => b
  | a, posInf => a

/-- Two-argument `Math.max`: `NaN` if either argument is `NaN`. -/
def max2 : JSNumber → JSNumber → JSNumber
  | nan, _ => nan
  | _, nan => nan
  | num a, num b => num (max a b)
  | posInf, _ => posInf
  | _, posInf => posInf
  | negInf, b => b
  | a, negInf => a

/-- Variadic `Math.min(...xs)`: `Infinity` for no argument. -/
def mathMin (xs : List JSNumber) : JSNumber := xs.foldl min2 posInf

/-- Variadic `Math.max(...xs)`: `-Infinity` for no argument. -/
def mathMax (xs : List JSNumber) : JSNumber := xs.foldl max2 negInf

/-- `Math.round`: nearest integer, a tie going up. -/
def round : JSNumber → JSNumber
  | num q => num (⌊q + 1 / 2⌋ : ℤ)
  | a => a

/-- Conversion of a possibly absent property to a number: `undefined` is `NaN`. -/
def toNumber : Option JSNumber → JSNumber
  | some a => a
  | none => nan

/-- `a <= b` as JavaScript evaluates it on numbers: false when either side is `NaN`. -/
def le : JSNumber → JSNumber → Bool
  | nan, _ => false
  | _, nan => false
  | num a, num b => decide (a ≤ b)
  | negInf, _ => true
  | _, posInf => true
  | _, _ => false

end JSNumber

/-- The `||` operator on two numbers: the left operand unless it is falsy (zero). -/
def jsOr (a b : ℚ) : ℚ := if a = 0 then b else a

/-! ## Records -/

/-- A field record of the store. `id` is the reading of `Date.now()` at creation. -/
structure Field where
  id : Int
  type : String
  x : Option JSNumber
  y : Option JSNumber
  value : String
  label : String
  page : Nat
  width : Option JSNumber
  height : Option JSNumber
  minDate : Option String
  maxDate : Option String
  placeholder : Option String
  format : Option String
  min : Option JSNumber
  max : Option JSNumber
  step : Option JSNumber
  options : Option (List String)
  selectedOption : Option (Option String)
  minWidth : Option JSNumber
  maxWidth : Option JSNumber
  minHeight : Option JSNumber
  maxHeight : Option JSNumber
  maintainAspectRatio : Option Bool
  isSelected : Option Bool
  deriving DecidableEq

/-- An object literal returned by `getDefaultDimensions` or `getFieldTypeProperties`:
the properties it defines (`selectedOption := some none` is `selectedOption: null`). -/
structure Props where
  width : Option JSNumber
  height : Option JSNumber
  value : Option String
  minDate : Option String
  maxDate : Option String
  placeholder : Option String
  format : Option String
  min : Option JSNumber
  max : Option JSNumber
  step : Option JSNumber
  options : Option (List String)
  selectedOption : Option (Option String)
  deriving DecidableEq

/-- The empty object literal. -/
def Props.empty : Props :=
  { width := none, height := none, value := none, minDate := none, maxDate := none,
    placeholder := none, format := none, min := none, max := none, step := none,
    options := none, selectedOption := none }

/-- Object spread: the record, with every property that `p` defines overwritten by it. -/
def Field.spread (f : Field) (p : Props) : Field :=
  { f with
    width := p.width <|> f.width
    height := p.height <|> f.height
    value := p.value.getD f.value
    minDate := p.minDate <|> f.minDate
    maxDate := p.maxDate <|> f.maxDate
    placeholder := p.placeholder <|> f.placeholder
    format := p.format <|> f.format
    min := p.min <|> f.min
    max := p.max <|> f.max
    step := p.step <|> f.step
    options := p.options <|> f.options
    selectedOption := p.selectedOption <|> f.selectedOption }

/-- What `getBoundingClientRect()` reports of an element. -/
structure DOMRect where
  left : ℚ
  top : ℚ
  deriving DecidableEq

/-- The scroll readings of the page: `window.pageXOffset`, `window.pageYOffset`,
`document.documentElement.scrollLeft` and `document.documentElement.scrollTop`. -/
structure Window where
  pageXOffset : ℚ
  pageYOffset : ℚ
  docScrollLeft : ℚ
  docScrollTop : ℚ

/-- A thrown JavaScript exception. -/
inductive JSError where
  | typeError
  | syntaxError
  | referenceError
  deriving DecidableEq

/-- The state of `PDFFormBuilder`. `canvasRef` is `canvasRef.current` (with the rectangle
the canvas reports); it is `none` until a document is loaded and the canvas is mounted. -/
structure EditorState where
  canvasRef : Option DOMRect
  scale : ℚ
  currentPage : Nat
  fields : List Field
  selectedField : Option Field
  dragOffset : JSNumber × JSNumber

/-! ## PDFFormBuilder.jsx -/

/-- `calculatePosition`: client point to document point. Reading the rectangle of a null
canvas throws. -/
def calculatePosition (w : Window) (st : EditorState) (clientX clientY : ℚ) :
    Except JSError (JSNumber × JSNumber) :=
  match st.canvasRef with
  | none => .error .typeError
  | some rect =>
    let scrollLeft := jsOr w.pageXOffset w.docScrollLeft
    let scrollTop := jsOr w.pageYOffset w.docScrollTop
    .ok (JSNumber.num (clientX + scrollLeft - rect.left) / JSNumber.num st.scale,
         JSNumber.num (clientY + scrollTop - rect.top) / JSNumber.num st.scale)

/-- The record under construction in `addField`, before the two spreads. -/
def baseField (now : Int) (currentPage : Nat) (type : String) : Field :=
  { id := now
    type := type
    x := some (.num 100)
    y := some (.num 100)
    value := ""
    label := "New " ++ type ++ " field"
    page := currentPage
    width := none, height := none, minDate := none, maxDate := none, placeholder := none,
    format := none, min := none, max := none, step := none, options := none,
    selectedOption := none, minWidth := none, maxWidth := none, minHeight := none,
    maxHeight := none, maintainAspectRatio := none, isSelected := none }

/-- `getDefaultDimensions`: the object literal of each `case`. -/
def getDefaultDimensions (type : String) : Props :=
  match type with
  | "checkbox" => { Props.empty with width := some (.num 20), height := some (.num 20) }
  | "radio" => { Props.empty with width := some (.num 20), height := some (.num 20) }
  | "date" =>
    { Props.empty with
      value := some "", minDate := some "", maxDate := some "",
      placeholder := some "Select date" }
  | "number" => { Props.empty with width := some (.num 150), height := some (.num 20) }
  | "textarea" => { Props.empty with width := some (.num 250), height := some (.num 100) }
  | _ => { Props.empty with width := some (.num 200), height := some (.num 20) }

/-- `getFieldTypeProperties`: the object literal of each `case`. -/
def getFieldTypeProperties (type : String) : Props :=
  match type with
  | "date" => { Props.empty with format := some "YYYY-MM-DD", placeholder := some "Select date" }
  | "number" =>
    { Props.empty with
      min := some (.num 0), max := some (.num 100), step := some (.num 1),
      placeholder := some "Enter number" }
  | "radio" =>
    { Props.empty with
      options := some ["Option 1", "Option 2", "Option 3"], selectedOption := some none }
  | _ => Props.empty

/-- The `newField` that `addField(type)` builds when `Date.now()` reads `now`. -/
def newField (now : Int) (currentPage : Nat) (type : String) : Field :=
  ((baseField now currentPage type).spread (getDefaultDimensions type)).spread
    (getFieldTypeProperties type)

/-- `addField`: append the new record and select it. -/
def addField (now : Int) (st : EditorState) (type : String) : EditorState :=
  { st with
    fields := st.fields ++ [newField now st.currentPage type]
    selectedField := some (newField now st.currentPage type) }

/-- A drop event: the pointer position and `e.dataTransfer.getData('field')`. -/
structure DropEvent where
  clientX : ℚ
  clientY : ℚ
  fieldData : String

/-- What `JSON.parse` returns, as far as `handleDrop` looks at it: `null`, or a value
whose `id` property is the given number (`none`: no `id`, or one that is not a number). -/
inductive Parsed where
  | null
  | value (id : Option Int)
  deriving DecidableEq

/-- `handleDrop`. The position is computed before the `try` block, so an exception of
`calculatePosition` leaves the handler; whatever is thrown inside the block is caught
and logged. `parse` is `JSON.parse`. Reading `field.id` of `null` throws in the callback
of `map`, which runs once per stored record. -/
def handleDrop (parse : String → Except JSError Parsed) (w : Window) (st : EditorState)
    (e : DropEvent) : Except JSError EditorState :=
  match calculatePosition w st e.clientX e.clientY with
  | .error err => .error err
  | .ok (x, y) =>
    if e.fieldData = "" then .ok st
    else
      match parse e.fieldData with
      | .error _ => .ok st
      | .ok .null =>
        match st.fields with
        | [] => .ok { st with fields := [] }
        | _ :: _ => .ok st
      | .ok (.value id) =>
        .ok { st with
              fields := st.fields.map fun f =>
                if some f.id = id then
                  { f with
                    x := some (x - st.dragOffset.1 / JSNumber.num st.scale)
                    y := some (y - st.dragOffset.2 / JSNumber.num st.scale) }
                else f }

/-- `handleDragStart` of `PDFFormBuilder`: store the offset times the scale. -/
def handleDragStart (st : EditorState) (offsetX offsetY : JSNumber) : EditorState :=
  { st with dragOffset := (offsetX * JSNumber.num st.scale, offsetY * JSNumber.num st.scale) }

/-- `updateField`: replace by id and select the replacement. -/
def updateField (st : EditorState) (updatedField : Field) : EditorState :=
  { st with
    fields := st.fields.map fun field => if field.id = updatedField.id then updatedField else field
    selectedField := some updatedField }

/-- `deleteField`: drop the records with that id and clear the selection. -/
def deleteField (st : EditorState) (fieldId : Int) : EditorState :=
  { st with
    fields := st.fields.filter fun field => decide (field.id ≠ fieldId)
    selectedField := none }

/-! ## PropertiesPanel.jsx -/

/-- The `onChange` of the Min input, shown for the selected field when its type is
`number`: `onUpdate` of the selection with `min` set to `Number(e.target.value)`. -/
def PropertiesPanel.onMinChange (st : EditorState) (entered : JSNumber) : EditorState :=
  match st.selectedField with
  | none => st
  | some field =>
    if field.type = "number" then updateField st { field with min := some entered } else st

/-! ## FormField.jsx -/

/-- The geometry part of the inline style `FormField` renders (in px). -/
structure Style where
  left : JSNumber
  top : JSNumber
  width : JSNumber
  height : JSNumber

/-- The `style` of the rendered field: every stored value times the scale. -/
def FormField.style (field : Field) (scale : ℚ) : Style :=
  { left := JSNumber.toNumber field.x * JSNumber.num scale
    top := JSNumber.toNumber field.y * JSNumber.num scale
    width := JSNumber.toNumber field.width * JSNumber.num scale
    height := JSNumber.toNumber field.height * JSNumber.num scale }

/-- The local state of one `FormField`: the resize flag, the size captured at gesture
start, and `fieldRef.current` as its `offsetLeft` and `offsetTop`. -/
structure FormFieldState where
  isDragging : Bool
  initialWidth : Option JSNumber
  initialHeight : Option JSNumber
  fieldRef : Option (ℚ × ℚ)

/-- A mouse event: the pointer position. -/
structure MouseEvent where
  clientX : ℚ
  clientY : ℚ

/-- `handleMouseMove`: the replacement handed to `onChange`, if any. -/
def FormField.handleMouseMove (field : Field) (scale : ℚ) (ui : FormFieldState)
    (e : MouseEvent) : Option Field :=
  match ui.isDragging, ui.fieldRef with
  | true, some (offsetLeft, offsetTop) =>
    let newWidth := JSNumber.num (e.clientX - offsetLeft)
    let newHeight := JSNumber.num (e.clientY - offsetTop)
    let newHeight :=
      if field.maintainAspectRatio = some true then
        let aspectRatio := JSNumber.toNumber ui.initialWidth / JSNumber.toNumber ui.initialHeight
        newWidth / aspectRatio
      else newHeight
    let newWidth := JSNumber.max2
      (JSNumber.min2 (newWidth / JSNumber.num scale) (JSNumber.toNumber field.maxWidth))
      (JSNumber.toNumber field.minWidth)
    let newHeight := JSNumber.max2
      (JSNumber.min2 (newHeight / JSNumber.num scale) (JSNumber.toNumber field.maxHeight))
      (JSNumber.toNumber field.minHeight)
    some { field with width := some newWidth, height := some newHeight }
  | _, _ => none

/-- `handleMouseDown`, as far as the local state goes: a press on the resize handle starts
the gesture and captures the size of the field; a press elsewhere selects the field and
leaves the local state as it is. -/
def FormField.handleMouseDown (field : Field) (ui : FormFieldState) (onResizeHandle : Bool) :
    FormFieldState :=
  if onResizeHandle then
    { ui with isDragging := true, initialWidth := field.width, initialHeight := field.height }
  else ui

/-- The effect of lines 10 to 13, run after a render in which the geometry of the field
changed: the captured size becomes the size of the field. -/
def FormField.syncInitialSize (field : Field) (ui : FormFieldState) : FormFieldState :=
  { ui with initialWidth := field.width, initialHeight := field.height }

/-- `handleAlign`: the replacement handed to `onChange`. `parentWidth` is `parent.width`;
`newX` and `newY` are declared without a value, so each is `undefined` until assigned. -/
def FormField.handleAlign (field : Field) (snapToGrid : Bool) (parentWidth gridSize : JSNumber)
    (alignment : String) : Field :=
  let newX : Option JSNumber :=
    match alignment with
    | "left" => some (.num 0)
    | "center" => some ((parentWidth - JSNumber.toNumber field.width) / .num 2)
    | "right" => some (parentWidth - JSNumber.toNumber field.width)
    | _ => none
  let newY : Option JSNumber := none
  let newX : Option JSNumber :=
    if snapToGrid then some (JSNumber.round (JSNumber.toNumber newX / gridSize) * gridSize)
    else newX
  let newY : Option JSNumber :=
    if snapToGrid then some (JSNumber.round (JSNumber.toNumber field.y / gridSize) * gridSize)
    else newY
  { field with x := newX, y := newY }

/-- What the identifier `fields` is bound to where the handlers of `FormField.jsx` read it.
No prop, import or local of the file binds it: it is unbound. -/
def FormField.fieldsInScope : Option (List Field) := none

/-- `handleDistributeHorizontally`: the replacements handed to `onChange`, in call order.
`scopeFields` is the binding of the identifier `fields`, read by the first statement;
reading an unbound identifier throws a `ReferenceError`. -/
def FormField.handleDistributeHorizontally (scopeFields : Option (List Field))
    (snapToGrid : Bool) (gridSize : JSNumber) : Except JSError (List Field) :=
  match scopeFields with
  | none => .error .referenceError
  | some fields =>
    let selectedFields := fields.filter fun f => decide (f.isSelected = some true)
    if selectedFields.length ≤ 1 then .ok []
    else
      let minX := JSNumber.mathMin (selectedFields.map fun f => JSNumber.toNumber f.x)
      let maxX := JSNumber.mathMax
        (selectedFields.map fun f => JSNumber.toNumber f.x + JSNumber.toNumber f.width)
      let totalWidth := maxX - minX
      let spacing := totalWidth / JSNumber.num ((selectedFields.length : ℚ) - 1)
      .ok (selectedFields.mapIdx fun i f =>
        let newX := minX + JSNumber.num i * spacing - JSNumber.toNumber f.width / .num 2
        let newX := if snapToGrid then JSNumber.round (newX / gridSize) * gridSize else newX
        { f with x := some newX, y := f.y })

/-- `handleDistributeVertically`: the replacements handed to `onChange`, in call order.
`scopeFields` is the binding of the identifier `fields`, as in the horizontal handler. -/
def FormField.handleDistributeVertically (scopeFields : Option (List Field))
    (snapToGrid : Bool) (gridSize : JSNumber) : Except JSError (List Field) :=
  match scopeFields with
  | none => .error .referenceError
  | some fields =>
    let selectedFields := fields.filter fun f => decide (f.isSelected = some true)
    if selectedFields.length ≤ 1 then .ok []
    else
      let minY := JSNumber.mathMin (selectedFields.map fun f => JSNumber.toNumber f.y)
      let maxY := JSNumber.mathMax
        (selectedFields.map fun f => JSNumber.toNumber f.y + JSNumber.toNumber f.height)
      let totalHeight := maxY - minY
      let spacing := totalHeight / JSNumber.num ((selectedFields.length : ℚ) - 1)
      .ok (selectedFields.mapIdx fun i f =>
        let newY := minY + JSNumber.num i * spacing - JSNumber.toNumber f.height / .num 2
        let newY := if snapToGrid then JSNumber.round (newY / gridSize) * gridSize else newY
        { f with x := f.x, y := some newY })

/-- The test `min <= v && v <= max` on possibly absent properties, as JavaScript
evaluates it. -/
def inRange (lo hi v : Option JSNumber) : Bool :=
  JSNumber.le (JSNumber.toNumber lo) (JSNumber.toNumber v) &&
    JSNumber.le (JSNumber.toNumber v) (JSNumber.toNumber hi)

/-- A record with size limits 10..100 by 10..50, as used in the resize examples. -/
def limitedField (minWidth maxWidth minHeight maxHeight : ℚ) (lockRatio : Bool) : Field :=
  { newField 1 1 "text" with
    minWidth := some (.num minWidth), maxWidth := some (.num maxWidth),
    minHeight := some (.num minHeight), maxHeight := some (.num maxHeight),
    maintainAspectRatio := some lockRatio }

/-- A 100 by 100 record with the aspect-ratio lock on and size limits 10..100 by 10..500,
as used in the locked resize example. -/
def lockedSquare : Field :=
  { limitedField 10 100 10 500 true with
    width := some (.num 100), height := some (.num 100) }

/-- A selected text field with the given id, at `(x, y)`, of size `width` by `height`,
as used in the distribution examples. -/
def selectedAt (id : Int) (x y width height : ℚ) : Field :=
  { newField id 1 "text" with
    x := some (.num x), y := some (.num y),
    width := some (.num width), height := some (.num height),
    isSelected := some true }

/-! ## Zoom, drag start and the remaining editor inputs -/

/-- The `-` zoom button: `setScale(prev => Math.max(0.5, prev - 0.1))`. -/
def zoomOut (st : EditorState) : EditorState :=
  { st with scale := max (1 / 2) (st.scale - 1 / 10) }

/-- The `+` zoom button: `setScale(prev => Math.min(2, prev + 0.1))`. -/
def zoomIn (st : EditorState) : EditorState :=
  { st with scale := min 2 (st.scale + 1 / 10) }

/-- A run of zoom clicks, `true` for `+` and `false` for `-`, oldest first. -/
def zoomClicks (st : EditorState) (clicks : List Bool) : EditorState :=
  clicks.foldl (fun s up => if up then zoomIn s else zoomOut s) st

/-- What `handleDragStart` of `FormField` hands on: the string it stores under `field` in
the drag payload, and the two offsets it passes to `onDragStart`. -/
structure DragStart where
  fieldData : String
  offsetX : JSNumber
  offsetY : JSNumber

/-- `handleDragStart` of `FormField`. `rect` is the bounding rectangle of the rendered
field, in viewport coordinates; `stringify field a b` is
`JSON.stringify({...field, offsetX: a, offsetY: b})`. -/
def FormField.handleDragStart (stringify : Field → JSNumber → JSNumber → String)
    (field : Field) (scale : ℚ) (rect : DOMRect) (clientX clientY : ℚ) : DragStart :=
  let offsetX := JSNumber.num (clientX - rect.left) / JSNumber.num scale
  let offsetY := JSNumber.num (clientY - rect.top) / JSNumber.num scale
  { fieldData := stringify field (offsetX * JSNumber.num scale) (offsetY * JSNumber.num scale)
    offsetX := offsetX
    offsetY := offsetY }

/-- The `onChange` of the Label input: `onUpdate` of the selection with a new label. -/
def PropertiesPanel.onLabelChange (st : EditorState) (entered : String) : EditorState :=
  match st.selectedField with
  | none => st
  | some field => updateField st { field with label := entered }

/-- The `onChange` of the Position X input: `onUpdate` of the selection with `x` set to
`Number(e.target.value)`. -/
def PropertiesPanel.onXChange (st : EditorState) (entered : JSNumber) : EditorState :=
  match st.selectedField with
  | none => st
  | some field => updateField st { field with x := some entered }

/-- The state of a freshly mounted `PDFFormBuilder`: the `useState` initial values. -/
def initialState : EditorState :=
  { canvasRef := none, scale := 1, currentPage := 1, fields := [], selectedField := none,
    dragOffset := (.num 0, .num 0) }

/-- The two functions of `JSON` the editor calls. -/
structure JSONLib where
  parse : String → Except JSError Parsed
  stringify : Field → JSNumber → JSNumber → String

/-- One input to the editor.
`mountCanvas`: a document is loaded and the canvas is rendered, or its rectangle changes.
`select`: `onSelect(field)`; `deselect`: a click on the empty viewer.
`update`: a call `onChange(r)` or `onUpdate(r)`, as made by the properties editor, by a
resize and by a distribution.
`dragStart`: a drag begins on the rendered `field` whose rectangle is `rect`. -/
inductive Action where
  | mountCanvas (rect : DOMRect)
  | zoomIn
  | zoomOut
  | add (now : Int) (type : String)
  | select (field : Field)
  | deselect
  | update (r : Field)
  | delete (fieldId : Int)
  | dragStart (field : Field) (rect : DOMRect) (clientX clientY : ℚ)
  | drop (w : Window) (e : DropEvent)

/-- The state after one input. An exception that leaves `handleDrop` leaves the state as
it was. -/
def step (json : JSONLib) (st : EditorState) : Action → EditorState
  | .mountCanvas rect => { st with canvasRef := some rect }
  | .zoomIn => zoomIn st
  | .zoomOut => zoomOut st
  | .add now type => addField now st type
  | .select field => { st with selectedField := some field }
  | .deselect => { st with selectedField := none }
  | .update r => updateField st r
  | .delete fieldId => deleteField st fieldId
  | .dragStart field rect clientX clientY =>
    handleDragStart st
      (FormField.handleDragStart json.stringify field st.scale rect clientX clientY).offsetX
      (FormField.handleDragStart json.stringify field st.scale rect clientX clientY).offsetY
  | .drop w e =>
    match handleDrop json.parse w st e with
    | .ok st' => st'
    | .error _ => st

/-- The state after a sequence of inputs, oldest first. -/
def run (json : JSONLib) (st : EditorState) (actions : List Action) : EditorState :=
  actions.foldl (step json) st

/-- The states reachable from the initial state by inputs that `allowed` admits. -/
inductive Reachable (json : JSONLib) (allowed : EditorState → Action → Prop) :
    EditorState → Prop where
  | init : Reachable json allowed initialState
  | step (st : EditorState) (a : Action) :
    Reachable json allowed st → allowed st a → Reachable json allowed (step json st a)

/-- The test `x >= 0 && y >= 0 && width >= 0 && height >= 0` on a record. -/
def Field.nonNegative (f : Field) : Bool :=
  JSNumber.le (.num 0) (JSNumber.toNumber f.x) &&
  JSNumber.le (.num 0) (JSNumber.toNumber f.y) &&
  JSNumber.le (.num 0) (JSNumber.toNumber f.width) &&
  JSNumber.le (.num 0) (JSNumber.toNumber f.height)

/-- Inputs under which non-negative geometry is kept: an add of a type other than `date`,
an update whose replacement is non-negative, and a drop whose point, taken relative to the
canvas with the scroll offset added, is not less than the stored drag offset. -/
def keepsNonNegative (st : EditorState) : Action → Prop
  | .add _ type => type ≠ "date"
  | .update r => r.nonNegative = true
  | .drop w e =>
    ∀ (rect : DOMRect) (ox oy : ℚ), st.canvasRef = some rect →
      st.dragOffset = (.num ox, .num oy) →
      ox ≤ e.clientX + jsOr w.pageXOffset w.docScrollLeft - rect.left ∧
      oy ≤ e.clientY + jsOr w.pageYOffset w.docScrollTop - rect.top
  | _ => True

/-- Inputs under which identifiers stay distinct: an add only when `Date.now()` reads a
value that no stored record has as its id. -/
def clockIsFresh (st : EditorState) : Action → Prop
  | .add now _ => now ∉ st.fields.map Field.id
  | _ => True

/-- A library for the examples: every payload parses to a record with id 1. -/
def exampleJSON : JSONLib :=
  { parse := fun _ => .ok (.value (some 1))
    stringify := fun _ _ _ => "payload" }

/-- The session of the selection example: load a document (canvas at (272, 16)), add a
text field when the clock reads 1, grab it at the client point (380, 120) and drop it at
(500, 320). -/
def dragSession : List Action :=
  [.mountCanvas ⟨272, 16⟩,
   .add 1 "text",
   .dragStart (newField 1 1 "text") ⟨372, 116⟩ 380 120,
   .drop ⟨0, 0, 0, 0⟩ ⟨500, 320, "payload"⟩]

/-! ## Lemmas on numbers -/

@[simp] theorem JSNumber.toNumber_some (a : JSNumber) : JSNumber.toNumber (some a) = a := rfl

@[simp] theorem JSNumber.toNumber_none : JSNumber.toNumber none = JSNumber.nan := rfl

theorem JSNumber.num_div_num (a b : ℚ) (hb : b ≠ 0) :
    JSNumber.num a / JSNumber.num b = JSNumber.num (a / b) := by
  show JSNumber.div _ _ = _
  simp [JSNumber.div, hb]

theorem JSNumber.num_mul_num (a b : ℚ) :
    JSNumber.num a * JSNumber.num b = JSNumber.num (a * b) := rfl

theorem JSNumber.num_add_num (a b : ℚ) :
    JSNumber.num a + JSNumber.num b = JSNumber.num (a + b) := rfl

theorem JSNumber.num_sub_num (a b : ℚ) :
    JSNumber.num a - JSNumber.num b = JSNumber.num (a - b) := by
  show JSNumber.add (JSNumber.num a) (JSNumber.neg (JSNumber.num b)) = _
  simp [JSNumber.add, JSNumber.neg, sub_eq_add_neg]

theorem JSNumber.min2_nan (a : JSNumber) : JSNumber.min2 a .nan = .nan := by
  cases a <;> rfl

theorem JSNumber.max2_nan (a : JSNumber) : JSNumber.max2 a .nan = .nan := by
  cases a <;> rfl

/-- `Math.round(q / g) * g` is a multiple of `g` at distance at most `g / 2` from `q`. -/
theorem JSNumber.round_snap (q g : ℚ) (hg : 0 < g) :
    JSNumber.round (JSNumber.num q / JSNumber.num g) * JSNumber.num g =
      JSNumber.num ((⌊q / g + 1 / 2⌋ : ℤ) * g) ∧
    |((⌊q / g + 1 / 2⌋ : ℤ) : ℚ) * g - q| ≤ g / 2 := by
  have hne : g ≠ 0 := ne_of_gt hg
  constructor
  · rw [JSNumber.num_div_num _ _ hne]
    rfl
  · have h1 : ((⌊q / g + 1 / 2⌋ : ℤ) : ℚ) ≤ q / g + 1 / 2 := Int.floor_le _
    have h2 : q / g + 1 / 2 < ((⌊q / g + 1 / 2⌋ : ℤ) : ℚ) + 1 := Int.lt_floor_add_one _
    have hq : q / g * g = q := div_mul_cancel₀ q hne
    rw [abs_le]
    constructor
    · have := mul_lt_mul_of_pos_right h2 hg
      nlinarith
    · have := mul_le_mul_of_nonneg_right h1 (le_of_lt hg)
      nlinarith

theorem foldl_min_spec (t : List ℚ) (a : ℚ) :
    t.foldl min a ∈ a :: t ∧ ∀ b ∈ a :: t, t.foldl min a ≤ b := by
  induction t generalizing a with
  | nil => simp
  | cons c t ih =>
    obtain ⟨hmem, hle⟩ := ih (min a c)
    simp only [List.foldl_cons]
    constructor
    · rcases List.mem_cons.mp hmem with h | h
      · rw [h]
        rcases min_choice a c with h' | h'
        · rw [h']; exact List.mem_cons_self _ _
        · rw [h']; exact List.mem_cons_of_mem _ (List.mem_cons_self _ _)
      · exact List.mem_cons_of_mem _ (List.mem_cons_of_mem _ h)
    · intro b hb
      have h0 : t.foldl min (min a c) ≤ min a c := hle _ (List.mem_cons_self _ _)
      rcases List.mem_cons.mp hb with h | h
      · rw [h]; exact le_trans h0 (min_le_left _ _)
      · rcases List.mem_cons.mp h with h | h
        · rw [h]; exact le_trans h0 (min_le_right _ _)
        · exact hle b (List.mem_cons_of_mem _ h)

theorem foldl_max_spec (t : List ℚ) (a : ℚ) :
    t.foldl max a ∈ a :: t ∧ ∀ b ∈ a :: t, b ≤ t.foldl max a := by
  induction t generalizing a with
  | nil => simp
  | cons c t ih =>
    obtain ⟨hmem, hle⟩ := ih (max a c)
    simp only [List.foldl_cons]
    constructor
    · rcases List.mem_cons.mp hmem with h | h
      · rw [h]
        rcases max_choice a c with h' | h'
        · rw [h']; exact List.mem_cons_self _ _
        · rw [h']; exact List.mem_cons_of_mem _ (List.mem_cons_self _ _)
      · exact List.mem_cons_of_mem _ (List.mem_cons_of_mem _ h)
    · intro b hb
      have h0 : max a c ≤ t.foldl max (max a c) := hle _ (List.mem_cons_self _ _)
      rcases List.mem_cons.mp hb with h | h
      · rw [h]; exact le_trans (le_max_left _ _) h0
      · rcases List.mem_cons.mp h with h | h
        · rw [h]; exact le_trans (le_max_right _ _) h0
        · exact hle b (List.mem_cons_of_mem _ h)

theorem JSNumber.foldl_min2_num (t : List ℚ) (a : ℚ) :
    (t.map JSNumber.num).foldl JSNumber.min2 (.num a) = .num (t.foldl min a) := by
  induction t generalizing a with
  | nil => rfl
  | cons c t ih =>
    simp only [List.map_cons, List.foldl_cons]
    exact ih (min a c)

theorem JSNumber.foldl_max2_num (t : List ℚ) (a : ℚ) :
    (t.map JSNumber.num).foldl JSNumber.max2 (.num a) = .num (t.foldl max a) := by
  induction t generalizing a with
  | nil => rfl
  | cons c t ih =>
    simp only [List.map_cons, List.foldl_cons]
    exact ih (max a c)

/-- `Math.min` over finitely many numbers, one at least, is their least element. -/
theorem JSNumber.mathMin_map_num (l : List ℚ) (m : ℚ) (hmem : m ∈ l)
    (hle : ∀ a ∈ l, m ≤ a) : JSNumber.mathMin (l.map JSNumber.num) = .num m := by
  cases l with
  | nil => simp at hmem
  | cons a t =>
    have h0 : JSNumber.mathMin ((a :: t).map JSNumber.num) =
        (t.map JSNumber.num).foldl JSNumber.min2 (.num a) := rfl
    rw [h0, JSNumber.foldl_min2_num]
    congr 1
    obtain ⟨h1, h2⟩ := foldl_min_spec t a
    exact le_antisymm (h2 m hmem) (hle _ h1)

/-- `Math.max` over finitely many numbers, one at least, is their greatest element. -/
theorem JSNumber.mathMax_map_num (l : List ℚ) (m : ℚ) (hmem : m ∈ l)
    (hle : ∀ a ∈ l, a ≤ m) : JSNumber.mathMax (l.map JSNumber.num) = .num m := by
  cases l with
  | nil => simp at hmem
  | cons a t =>
    have h0 : JSNumber.mathMax ((a :: t).map JSNumber.num) =
        (t.map JSNumber.num).foldl JSNumber.max2 (.num a) := rfl
    rw [h0, JSNumber.foldl_max2_num]
    congr 1
    obtain ⟨h1, h2⟩ := foldl_max_spec t a
    exact le_antisymm (hle _ h1) (h2 m hmem)

/-! ## Lemmas on the store -/

theorem filter_id_ne_of_absent {l : List Field} {i : Int} (h : ∀ f ∈ l, f.id ≠ i) :
    l.filter (fun field => decide (field.id ≠ i)) = l := by
  rw [List.filter_eq_self]
  intro f hf
  simpa using h f hf

/-! ## Lemmas on distribution -/

theorem distributeH_core (fields : List Field) (gridSize : JSNumber)
    (P S : Field → ℚ) (m M : ℚ)
    (hn : 2 ≤ (fields.filter fun f => decide (f.isSelected = some true)).length)
    (hnum : ∀ f ∈ fields.filter fun f => decide (f.isSelected = some true),
      f.x = some (.num (P f)) ∧ f.width = some (.num (S f)))
    (hm : ∃ f ∈ fields.filter fun f => decide (f.isSelected = some true), P f = m)
    (hmle : ∀ f ∈ fields.filter fun f => decide (f.isSelected = some true), m ≤ P f)
    (hM : ∃ f ∈ fields.filter fun f => decide (f.isSelected = some true), P f + S f = M)
    (hMle : ∀ f ∈ fields.filter fun f => decide (f.isSelected = some true), P f + S f ≤ M) :
    FormField.handleDistributeHorizontally (some fields) false gridSize =
      .ok ((fields.filter fun f => decide (f.isSelected = some true)).mapIdx fun i f =>
        { f with
          x := some (.num (m + (i : ℚ) *
            ((M - m) / (((fields.filter fun f => decide (f.isSelected = some true)).length : ℚ)
              - 1)) - S f / 2)) }) := by
  have hn1 : (((fields.filter fun f => decide (f.isSelected = some true)).length : ℚ) - 1)
      ≠ 0 := by
    have : (2 : ℚ) ≤ ((fields.filter fun f => decide (f.isSelected = some true)).length : ℚ) := by
      exact_mod_cast hn
    linarith
  have hmin : JSNumber.mathMin
      ((fields.filter fun f => decide (f.isSelected = some true)).map
        fun f => JSNumber.toNumber f.x) = .num m := by
    have hmap : ((fields.filter fun f => decide (f.isSelected = some true)).map
        fun f => JSNumber.toNumber f.x) =
        (((fields.filter fun f => decide (f.isSelected = some true)).map P).map
          JSNumber.num) := by
      rw [List.map_map]
      apply List.map_congr_left
      intro f hf
      simp [(hnum f hf).1]
    rw [hmap]
    apply JSNumber.mathMin_map_num
    · obtain ⟨f, hf, hfm⟩ := hm
      exact List.mem_map.mpr ⟨f, hf, hfm⟩
    · intro a ha
      obtain ⟨f, hf, hfa⟩ := List.mem_map.mp ha
      rw [← hfa]
      exact hmle f hf
  have hmax : JSNumber.mathMax
      ((fields.filter fun f => decide (f.isSelected = some true)).map
        fun f => JSNumber.toNumber f.x + JSNumber.toNumber f.width) = .num M := by
    have hmap : ((fields.filter fun f => decide (f.isSelected = some true)).map
        fun f => JSNumber.toNumber f.x + JSNumber.toNumber f.width) =
        (((fields.filter fun f => decide (f.isSelected = some true)).map
          fun f => P f + S f).map JSNumber.num) := by
      rw [List.map_map]
      apply List.map_congr_left
      intro f hf
      simp [(hnum f hf).1, (hnum f hf).2, JSNumber.num_add_num]
    rw [hmap]
    apply JSNumber.mathMax_map_num
    · obtain ⟨f, hf, hfm⟩ := hM
      exact List.mem_map.mpr ⟨f, hf, hfm⟩
    · intro a ha
      obtain ⟨f, hf, hfa⟩ := List.mem_map.mp ha
      rw [← hfa]
      exact hMle f hf
  have hgt : ¬ (fields.filter fun f => decide (f.isSelected = some true)).length ≤ 1 := by
    omega
  simp only [FormField.handleDistributeHorizontally, hgt, if_false, hmin, hmax,
    JSNumber.num_sub_num, JSNumber.num_div_num _ _ hn1, JSNumber.num_mul_num,
    JSNumber.num_add_num, Bool.false_eq_true, Except.ok.injEq]
  apply List.ext_getElem?
  intro i
  simp only [List.getElem?_mapIdx]
  cases hi : (fields.filter fun f => decide (f.isSelected = some true))[i]? with
  | none => rfl
  | some f =>
    have hf : f ∈ fields.filter fun f => decide (f.isSelected = some true) :=
      List.getElem?_mem hi
    simp only [Option.map_some', (hnum f hf).2, JSNumber.toNumber_some,
      JSNumber.num_div_num _ _ (two_ne_zero), JSNumber.num_sub_num]

theorem distributeV_core (fields : List Field) (gridSize : JSNumber)
    (P S : Field → ℚ) (m M : ℚ)
    (hn : 2 ≤ (fields.filter fun f => decide (f.isSelected = some true)).length)
    (hnum : ∀ f ∈ fields.filter fun f => decide (f.isSelected = some true),
      f.y = some (.num (P f)) ∧ f.height = some (.num (S f)))
    (hm : ∃ f ∈ fields.filter fun f => decide (f.isSelected = some true), P f = m)
    (hmle : ∀ f ∈ fields.filter fun f => decide (f.isSelected = some true), m ≤ P f)
    (hM : ∃ f ∈ fields.filter fun f => decide (f.isSelected = some true), P f + S f = M)
    (hMle : ∀ f ∈ fields.filter fun f => decide (f.isSelected = some true), P f + S f ≤ M) :
    FormField.handleDistributeVertically (some fields) false gridSize =
      .ok ((fields.filter fun f => decide (f.isSelected = some true)).mapIdx fun i f =>
        { f with
          y := some (.num (m + (i : ℚ) *
            ((M - m) / (((fields.filter fun f => decide (f.isSelected = some true)).length : ℚ)
              - 1)) - S f / 2)) }) := by
  have hn1 : (((fields.filter fun f => decide (f.isSelected = some true)).length : ℚ) - 1)
      ≠ 0 := by
    have : (2 : ℚ) ≤ ((fields.filter fun f => decide (f.isSelected = some true)).length : ℚ) := by
      exact_mod_cast hn
    linarith
  have hmin : JSNumber.mathMin
      ((fields.filter fun f => decide (f.isSelected = some true)).map
        fun f => JSNumber.toNumber f.y) = .num m := by
    have hmap : ((fields.filter fun f => decide (f.isSelected = some true)).map
        fun f => JSNumber.toNumber f.y) =
        (((fields.filter fun f => decide (f.isSelected = some true)).map P).map
          JSNumber.num) := by
      rw [List.map_map]
      apply List.map_congr_left
      intro f hf
      simp [(hnum f hf).1]
    rw [hmap]
    apply JSNumber.mathMin_map_num
    · obtain ⟨f, hf, hfm⟩ := hm
      exact List.mem_map.mpr ⟨f, hf, hfm⟩
    · intro a ha
      obtain ⟨f, hf, hfa⟩ := List.mem_map.mp ha
      rw [← hfa]
      exact hmle f hf
  have hmax : JSNumber.mathMax
      ((fields.filter fun f => decide (f.isSelected = some true)).map
        fun f => JSNumber.toNumber f.y + JSNumber.toNumber f.height) = .num M := by
    have hmap : ((fields.filter fun f => decide (f.isSelected = some true)).map
        fun f => JSNumber.toNumber f.y + JSNumber.toNumber f.height) =
        (((fields.filter fun f => decide (f.isSelected = some true)).map
          fun f => P f + S f).map JSNumber.num) := by
      rw [List.map_map]
      apply List.map_congr_left
      intro f hf
      simp [(hnum f hf).1, (hnum f hf).2, JSNumber.num_add_num]
    rw [hmap]
    apply JSNumber.mathMax_map_num
    · obtain ⟨f, hf, hfm⟩ := hM
      exact List.mem_map.mpr ⟨f, hf, hfm⟩
    · intro a ha
      obtain ⟨f, hf, hfa⟩ := List.mem_map.mp ha
      rw [← hfa]
      exact hMle f hf
  have hgt : ¬ (fields.filter fun f => decide (f.isSelected = some true)).length ≤ 1 := by
    omega
  simp only [FormField.handleDistributeVertically, hgt, if_false, hmin, hmax,
    JSNumber.num_sub_num, JSNumber.num_div_num _ _ hn1, JSNumber.num_mul_num,
    JSNumber.num_add_num, Bool.false_eq_true, Except.ok.injEq]
  apply List.ext_getElem?
  intro i
  simp only [List.getElem?_mapIdx]
  cases hi : (fields.filter fun f => decide (f.isSelected = some true))[i]? with
  | none => rfl
  | some f =>
    have hf : f ∈ fields.filter fun f => decide (f.isSelected = some true) :=
      List.getElem?_mem hi
    simp only [Option.map_some', (hnum f hf).2, JSNumber.toNumber_some,
      JSNumber.num_div_num _ _ (two_ne_zero), JSNumber.num_sub_num]

/-! ## Lemmas on sessions -/

theorem zoomClicks_bounds (clicks : List Bool) (st : EditorState)
    (hlo : 1 / 2 ≤ st.scale) (hhi : st.scale ≤ 2) :
    1 / 2 ≤ (zoomClicks st clicks).scale ∧ (zoomClicks st clicks).scale ≤ 2 ∧
      (zoomClicks st clicks).fields = st.fields := by
  induction clicks generalizing st with
  | nil => exact ⟨hlo, hhi, rfl⟩
  | cons up rest ih =>
    cases up with
    | true =>
      have h := ih (zoomIn st)
        (le_min (by norm_num) (by show (1 : ℚ) / 2 ≤ st.scale + 1 / 10; linarith))
        (min_le_left _ _)
      exact h
    | false =>
      have h := ih (zoomOut st) (le_max_left _ _)
        (max_le (by norm_num) (by show st.scale - 1 / 10 ≤ 2; linarith))
      exact h

/-- What a drop that returns normally does: the canvas is mounted, and the state is
either unchanged or has the records with one id moved to the computed position. -/
theorem handleDrop_ok (parse : String → Except JSError Parsed) (w : Window)
    (st st' : EditorState) (e : DropEvent) (h : handleDrop parse w st e = .ok st') :
    ∃ rect, st.canvasRef = some rect ∧
      (st' = st ∨ ∃ i : Int, st' = { st with
        fields := st.fields.map fun f =>
          if f.id = i then
            { f with
              x := some (JSNumber.num
                  ((e.clientX + jsOr w.pageXOffset w.docScrollLeft - rect.left))
                / JSNumber.num st.scale - st.dragOffset.1 / JSNumber.num st.scale)
              y := some (JSNumber.num
                  ((e.clientY + jsOr w.pageYOffset w.docScrollTop - rect.top))
                / JSNumber.num st.scale - st.dragOffset.2 / JSNumber.num st.scale) }
          else f }) := by
  rcases st with ⟨canvas, sc, pg, fs, sel, off⟩
  cases canvas with
  | none => simp [handleDrop, calculatePosition] at h
  | some rect =>
    refine ⟨rect, rfl, ?_⟩
    simp only [handleDrop, calculatePosition] at h
    by_cases hd : e.fieldData = ""
    · simp only [hd, if_true, Except.ok.injEq] at h
      exact Or.inl h.symm
    · simp only [hd, if_false] at h
      cases hp : parse e.fieldData with
      | error err =>
        simp only [hp, Except.ok.injEq] at h
        exact Or.inl h.symm
      | ok v =>
        cases v with
        | null =>
          simp only [hp] at h
          cases fs with
          | nil =>
            simp only [Except.ok.injEq] at h
            exact Or.inl h.symm
          | cons a t =>
            simp only [Except.ok.injEq] at h
            exact Or.inl h.symm
        | value id =>
          simp only [hp, Except.ok.injEq] at h
          cases id with
          | none =>
            left
            rw [← h]
            simp
          | some i =>
            right
            refine ⟨i, ?_⟩
            rw [← h]
            simp

theorem map_id_replace (l : List Field) (i : Int) (g : Field → Field)
    (hg : ∀ f, f.id = i → (g f).id = f.id) :
    (l.map fun f => if f.id = i then g f else f).map Field.id = l.map Field.id := by
  rw [List.map_map]
  apply List.map_congr_left
  intro f _
  by_cases h : f.id = i
  · simp [h, hg f h]
  · simp [h]

theorem updateField_ids (st : EditorState) (r : Field) :
    (updateField st r).fields.map Field.id = st.fields.map Field.id := by
  simp only [updateField]
  exact map_id_replace st.fields r.id (fun _ => r) (fun f hf => hf.symm)

theorem handleDrop_ids (parse : String → Except JSError Parsed) (w : Window)
    (st st' : EditorState) (e : DropEvent) (h : handleDrop parse w st e = .ok st') :
    st'.fields.map Field.id = st.fields.map Field.id := by
  obtain ⟨rect, _, h' | ⟨i, h'⟩⟩ := handleDrop_ok parse w st st' e h
  · rw [h']
  · rw [h']
    exact map_id_replace st.fields i _ (fun f _ => rfl)

theorem step_keeps_ids_distinct (json : JSONLib) (st : EditorState) (a : Action)
    (hfresh : clockIsFresh st a) (hd : (st.fields.map Field.id).Nodup) :
    ((step json st a).fields.map Field.id).Nodup := by
  cases a with
  | mountCanvas rect => exact hd
  | zoomIn => exact hd
  | zoomOut => exact hd
  | add now type =>
    simp only [step, addField, List.map_append, List.map_cons, List.map_nil]
    rw [List.nodup_append]
    refine ⟨hd, List.nodup_singleton _, ?_⟩
    intro i hi hi'
    have hnow : i = now := by simpa using hi'
    exact hfresh (hnow ▸ hi)
  | select field => exact hd
  | deselect => exact hd
  | update r =>
    simp only [step]
    rw [updateField_ids]
    exact hd
  | delete fieldId =>
    simp only [step, deleteField]
    exact List.Nodup.sublist (List.Sublist.map _ (List.filter_sublist _)) hd
  | dragStart field rect clientX clientY => exact hd
  | drop w e =>
    simp only [step]
    cases hr : handleDrop json.parse w st e with
    | error err => exact hd
    | ok st' =>
      simp only
      rw [handleDrop_ids json.parse w st st' e hr]
      exact hd

theorem getFieldTypeProperties_size (type : String) :
    (getFieldTypeProperties type).width = none ∧ (getFieldTypeProperties type).height = none := by
  unfold getFieldTypeProperties
  split <;> simp [Props.empty]

theorem getDefaultDimensions_size (type : String) (h : type ≠ "date") :
    ∃ a b : ℚ, 0 ≤ a ∧ 0 ≤ b ∧ (getDefaultDimensions type).width = some (.num a) ∧
      (getDefaultDimensions type).height = some (.num b) := by
  unfold getDefaultDimensions
  split
  · exact ⟨20, 20, by norm_num, by norm_num, rfl, rfl⟩
  · exact ⟨20, 20, by norm_num, by norm_num, rfl, rfl⟩
  · exact absurd rfl h
  · exact ⟨150, 20, by norm_num, by norm_num, rfl, rfl⟩
  · exact ⟨250, 100, by norm_num, by norm_num, rfl, rfl⟩
  · exact ⟨200, 20, by norm_num, by norm_num, rfl, rfl⟩

/-- A record added with a type other than `date` has non-negative geometry. -/
theorem newField_nonNegative (now : Int) (page : Nat) (type : String) (h : type ≠ "date") :
    (newField now page type).nonNegative = true := by
  obtain ⟨a, b, ha, hb, hw, hh⟩ := getDefaultDimensions_size type h
  obtain ⟨pw, ph⟩ := getFieldTypeProperties_size type
  simp [Field.nonNegative, newField, Field.spread, baseField, hw, hh, pw, ph, JSNumber.le, ha, hb]

/-- A record moved to a non-negative position keeps non-negative geometry. -/
theorem nonNegative_move (f : Field) (a b : ℚ) (ha : 0 ≤ a) (hb : 0 ≤ b)
    (hf : f.nonNegative = true) :
    Field.nonNegative { f with x := some (.num a), y := some (.num b) } = true := by
  simp only [Field.nonNegative, Bool.and_eq_true] at hf ⊢
  refine ⟨⟨⟨?_, ?_⟩, hf.1.2⟩, hf.2⟩
  · simp [JSNumber.le, ha]
  · simp [JSNumber.le, hb]

/-- One admitted input keeps: non-negative geometry of every record, a positive scale,
and a drag offset made of two numbers. -/
theorem step_keeps_nonNegative (json : JSONLib) (st : EditorState) (a : Action)
    (hallowed : keepsNonNegative st a)
    (hgeo : ∀ f ∈ st.fields, f.nonNegative = true) (hscale : 0 < st.scale)
    (hoff : ∃ ox oy : ℚ, st.dragOffset = (.num ox, .num oy)) :
    (∀ f ∈ (step json st a).fields, f.nonNegative = true) ∧ 0 < (step json st a).scale ∧
      ∃ ox oy : ℚ, (step json st a).dragOffset = (.num ox, .num oy) := by
  have hs : st.scale ≠ 0 := ne_of_gt hscale
  cases a with
  | mountCanvas rect => exact ⟨hgeo, hscale, hoff⟩
  | zoomIn =>
    refine ⟨hgeo, ?_, hoff⟩
    show (0 : ℚ) < min 2 (st.scale + 1 / 10)
    exact lt_min (by norm_num) (by linarith)
  | zoomOut =>
    refine ⟨hgeo, ?_, hoff⟩
    show (0 : ℚ) < max (1 / 2) (st.scale - 1 / 10)
    exact lt_of_lt_of_le (by norm_num) (le_max_left _ _)
  | add now type =>
    refine ⟨?_, hscale, hoff⟩
    intro f hf
    simp only [step, addField, List.mem_append, List.mem_singleton] at hf
    rcases hf with hf | hf
    · exact hgeo f hf
    · rw [hf]
      exact newField_nonNegative now st.currentPage type hallowed
  | select field => exact ⟨hgeo, hscale, hoff⟩
  | deselect => exact ⟨hgeo, hscale, hoff⟩
  | update r =>
    refine ⟨?_, hscale, hoff⟩
    intro f hf
    simp only [step, updateField, List.mem_map] at hf
    obtain ⟨g, hg, hgf⟩ := hf
    by_cases hid : g.id = r.id
    · rw [if_pos hid] at hgf
      rw [← hgf]
      exact hallowed
    · rw [if_neg hid] at hgf
      rw [← hgf]
      exact hgeo g hg
  | delete fieldId =>
    refine ⟨?_, hscale, hoff⟩
    intro f hf
    simp only [step, deleteField] at hf
    exact hgeo f (List.mem_of_mem_filter hf)
  | dragStart field rect clientX clientY =>
    refine ⟨hgeo, hscale, ?_⟩
    simp only [step, handleDragStart, FormField.handleDragStart, JSNumber.num_div_num _ _ hs,
      JSNumber.num_mul_num]
    exact ⟨_, _, rfl⟩
  | drop w e =>
    simp only [step]
    cases hr : handleDrop json.parse w st e with
    | error err => exact ⟨hgeo, hscale, hoff⟩
    | ok st' =>
      simp only
      obtain ⟨rect, hcanvas, h' | ⟨i, h'⟩⟩ := handleDrop_ok json.parse w st st' e hr
      · rw [h']
        exact ⟨hgeo, hscale, hoff⟩
      · obtain ⟨ox, oy, hxy⟩ := hoff
        obtain ⟨hgx, hgy⟩ := hallowed rect ox oy hcanvas hxy
        rw [h']
        refine ⟨?_, hscale, ⟨ox, oy, hxy⟩⟩
        intro f hf
        simp only [List.mem_map] at hf
        obtain ⟨g, hg, hgf⟩ := hf
        by_cases hid : g.id = i
        · rw [if_pos hid] at hgf
          rw [← hgf, hxy]
          simp only [JSNumber.num_div_num _ _ hs, JSNumber.num_sub_num]
          apply nonNegative_move _ _ _ _ _ (hgeo g hg)
          · exact sub_nonneg.mpr ((div_le_div_iff_of_pos_right hscale).mpr hgx)
          · exact sub_nonneg.mpr ((div_le_div_iff_of_pos_right hscale).mpr hgy)
        · rw [if_neg hid] at hgf
          rw [← hgf]
          exact hgeo g hg

/-! ## Theorems -/

/-- C1: document to screen (the rendered left/top is the stored value times the scale,
offset by the viewer origin less the scroll offset) followed by `calculatePosition`
is the identity, for every scale between 1/2 and 2. -/
theorem calculatePosition_round_trip (w : Window) (st : EditorState) (rect : DOMRect)
    (field : Field) (x y : ℚ)
    (hlo : 1 / 2 ≤ st.scale) (hhi : st.scale ≤ 2)
    (hcanvas : st.canvasRef = some rect)
    (hx : field.x = some (.num x)) (hy : field.y = some (.num y)) :
    (FormField.style field st.scale).left = .num (x * st.scale) ∧
    (FormField.style field st.scale).top = .num (y * st.scale) ∧
    calculatePosition w st
      (x * st.scale + rect.left - jsOr w.pageXOffset w.docScrollLeft)
      (y * st.scale + rect.top - jsOr w.pageYOffset w.docScrollTop)
      = .ok (.num x, .num y) := by
  have hs : st.scale ≠ 0 := by
    have hpos : (0 : ℚ) < st.scale := lt_of_lt_of_le (by norm_num) hlo
    have _hfin : st.scale ≤ 2 := hhi
    exact ne_of_gt hpos
  refine ⟨?_, ?_, ?_⟩
  · simp [FormField.style, hx, JSNumber.toNumber, JSNumber.num_mul_num]
  · simp [FormField.style, hy, JSNumber.toNumber, JSNumber.num_mul_num]
  · simp only [calculatePosition, hcanvas]
    rw [JSNumber.num_div_num _ _ hs, JSNumber.num_div_num _ _ hs]
    congr 3
    · field_simp
    · field_simp

/-- C2: `addField` appends a record carrying the default size of its type for text,
textarea, number, checkbox and radio; for date the appended record has neither a width
nor a height, because the `date` case of `getDefaultDimensions` defines none. -/
theorem addField_default_size (now : Int) (st : EditorState) :
    (∀ T : String, (addField now st T).fields = st.fields ++ [newField now st.currentPage T]) ∧
    (∀ page : Nat,
      ((newField now page "text").width = some (.num 200) ∧
        (newField now page "text").height = some (.num 20)) ∧
      ((newField now page "textarea").width = some (.num 250) ∧
        (newField now page "textarea").height = some (.num 100)) ∧
      ((newField now page "number").width = some (.num 150) ∧
        (newField now page "number").height = some (.num 20)) ∧
      ((newField now page "checkbox").width = some (.num 20) ∧
        (newField now page "checkbox").height = some (.num 20)) ∧
      ((newField now page "radio").width = some (.num 20) ∧
        (newField now page "radio").height = some (.num 20)) ∧
      ((newField now page "date").width = none ∧
        (newField now page "date").height = none)) := by
  refine ⟨fun T => rfl, fun page => ?_⟩
  simp [newField, baseField, getDefaultDimensions, getFieldTypeProperties, Field.spread,
    Props.empty]

/-- C3: on a store with pairwise distinct ids, `deleteField i` removes the record with
id `i` and nothing else, keeping the order (the store is `l₁ ++ f :: l₂` and becomes
`l₁ ++ l₂`, one shorter); when no record has id `i` the list is unchanged. -/
theorem deleteField_removes_exactly (st : EditorState) (i : Int)
    (hdistinct : (st.fields.map Field.id).Nodup) :
    ((∀ f ∈ st.fields, f.id ≠ i) → (deleteField st i).fields = st.fields) ∧
    (∀ f ∈ st.fields, f.id = i →
      ∃ l₁ l₂, st.fields = l₁ ++ f :: l₂ ∧ (deleteField st i).fields = l₁ ++ l₂ ∧
        (deleteField st i).fields.length + 1 = st.fields.length) := by
  constructor
  · intro h
    simp only [deleteField]
    exact filter_id_ne_of_absent h
  · intro f hf hfi
    obtain ⟨l₁, l₂, hsplit⟩ := List.append_of_mem hf
    have hdist := hdistinct
    rw [hsplit, List.map_append, List.map_cons] at hdist
    have hd := List.nodup_append.mp hdist
    have h1 : ∀ g ∈ l₁, g.id ≠ i := by
      intro g hg hgi
      exact hd.2.2 (List.mem_map_of_mem Field.id hg)
        (by rw [hgi, ← hfi]; exact List.mem_cons_self _ _)
    have h2 : ∀ g ∈ l₂, g.id ≠ i := by
      intro g hg hgi
      have := (List.nodup_cons.mp hd.2.1).1
      exact this (by rw [hfi, ← hgi]; exact List.mem_map_of_mem Field.id hg)
    have heq : (deleteField st i).fields = l₁ ++ l₂ := by
      simp only [deleteField]
      rw [hsplit, List.filter_append, List.filter_cons]
      simp only [hfi, ne_eq, not_true_eq_false, decide_False, Bool.false_eq_true, if_false]
      rw [filter_id_ne_of_absent h1, filter_id_ne_of_absent h2]
    refine ⟨l₁, l₂, hsplit, heq, ?_⟩
    rw [heq, hsplit]
    simp only [List.length_append, List.length_cons]
    omega

/-- C4: `updateField r` keeps the length and the order of the store, puts `r` at every
position whose record has the id of `r`, leaves every other position as it was, and
selects `r`. In particular, adding a number field (width 150, height 20, min 0, max 100,
step 1) and editing Min to 10 in the properties editor leaves, for that id, the created
record with `min` set to 10 and nothing else changed. -/
theorem updateField_replaces_by_id (st : EditorState) (r : Field) :
    (updateField st r).fields.length = st.fields.length ∧
    (∀ k : Nat, (updateField st r).fields[k]? =
      (st.fields[k]?).map fun f => if f.id = r.id then r else f) ∧
    (updateField st r).selectedField = some r ∧
    (∀ now : Int,
      (newField now st.currentPage "number").width = some (.num 150) ∧
      (newField now st.currentPage "number").height = some (.num 20) ∧
      (newField now st.currentPage "number").min = some (.num 0) ∧
      (newField now st.currentPage "number").max = some (.num 100) ∧
      (newField now st.currentPage "number").step = some (.num 1) ∧
      { newField now st.currentPage "number" with min := some (.num 10) } ∈
        (PropertiesPanel.onMinChange (addField now st "number") (.num 10)).fields ∧
      (∀ f ∈ (PropertiesPanel.onMinChange (addField now st "number") (.num 10)).fields,
        f.id = now → f = { newField now st.currentPage "number" with min := some (.num 10) }) ∧
      (PropertiesPanel.onMinChange (addField now st "number") (.num 10)).selectedField =
        some { newField now st.currentPage "number" with min := some (.num 10) }) := by
  refine ⟨by simp [updateField], fun k => by simp [updateField], rfl, fun now => ?_⟩
  have hid : (newField now st.currentPage "number").id = now := rfl
  have hty : (newField now st.currentPage "number").type = "number" := rfl
  have hstep : PropertiesPanel.onMinChange (addField now st "number") (.num 10) =
      updateField (addField now st "number")
        { newField now st.currentPage "number" with min := some (.num 10) } := by
    simp [PropertiesPanel.onMinChange, addField, hty]
  refine ⟨?_, ?_, ?_, ?_, ?_, ?_, ?_, ?_⟩
  · simp [newField, baseField, getDefaultDimensions, getFieldTypeProperties, Field.spread,
      Props.empty]
  · simp [newField, baseField, getDefaultDimensions, getFieldTypeProperties, Field.spread,
      Props.empty]
  · simp [newField, baseField, getDefaultDimensions, getFieldTypeProperties, Field.spread,
      Props.empty]
  · simp [newField, baseField, getDefaultDimensions, getFieldTypeProperties, Field.spread,
      Props.empty]
  · simp [newField, baseField, getDefaultDimensions, getFieldTypeProperties, Field.spread,
      Props.empty]
  · rw [hstep]
    simp only [updateField, addField, List.map_append, List.map_cons, List.map_nil, hid,
      if_true, List.mem_append, List.mem_singleton]
    exact Or.inr trivial
  · rw [hstep]
    intro f hf hfid
    simp only [updateField, addField, List.mem_map] at hf
    obtain ⟨g, _, hg⟩ := hf
    by_cases hgid : g.id = now
    · simpa [hgid, hid] using hg.symm
    · have hg2 : g = f := by simpa [hgid, hid] using hg
      exact absurd (hg2 ▸ hfid) hgid
  · rw [hstep]
    rfl

/-- Witness of C1: scale 3/2, viewer origin (10, 20), scroll offsets 5 and 7, and the
point (100, 100) of a freshly added text field. -/
theorem calculatePosition_round_trip_witness :
    calculatePosition ⟨5, 0, 0, 7⟩ ⟨some ⟨10, 20⟩, 3 / 2, 1, [], none, (.num 0, .num 0)⟩
      (100 * (3 / 2) + 10 - jsOr 5 0) (100 * (3 / 2) + 20 - jsOr 0 7)
      = .ok (.num 100, .num 100) :=
  (calculatePosition_round_trip ⟨5, 0, 0, 7⟩
    ⟨some ⟨10, 20⟩, 3 / 2, 1, [], none, (.num 0, .num 0)⟩ ⟨10, 20⟩ (newField 1 1 "text")
    100 100 (by norm_num) (by norm_num) rfl rfl rfl).2.2

/-- Witness of C3: a store of two records with ids 1 and 2; deleting id 1. -/
theorem deleteField_removes_exactly_witness :
    ∃ l₁ l₂, [newField 1 1 "text", newField 2 1 "number"] = l₁ ++ newField 1 1 "text" :: l₂ ∧
      (deleteField ⟨none, 1, 1, [newField 1 1 "text", newField 2 1 "number"], none,
        (.num 0, .num 0)⟩ 1).fields = l₁ ++ l₂ ∧
      (deleteField ⟨none, 1, 1, [newField 1 1 "text", newField 2 1 "number"], none,
        (.num 0, .num 0)⟩ 1).fields.length + 1 = 2 :=
  (deleteField_removes_exactly
    ⟨none, 1, 1, [newField 1 1 "text", newField 2 1 "number"], none, (.num 0, .num 0)⟩ 1
    (by simp [newField, baseField, Field.spread])).2 (newField 1 1 "text")
      (List.mem_cons_self _ _) rfl

/-- C5: a record as `addField` creates it carries no size limits and the code supplies no
defaults, so the clamp of `handleMouseMove` computes with `undefined`: for every type,
every scale and every pointer position the replacement proposed during an active resize
has width `NaN` and height `NaN`, and `NaN` lies in no range. -/
theorem handleMouseMove_unlimited_gives_nan (now : Int) (page : Nat) (type : String)
    (scale : ℚ) (ui : FormFieldState) (offsetLeft offsetTop : ℚ) (e : MouseEvent) :
    FormField.handleMouseMove (newField now page type) scale
        (FormField.handleMouseDown (newField now page type)
          { ui with fieldRef := some (offsetLeft, offsetTop) } true) e
      = some { newField now page type with width := some .nan, height := some .nan } ∧
    (∀ lo hi : Option JSNumber, inRange lo hi (some .nan) = false) := by
  have h1 : (newField now page type).maintainAspectRatio = none := rfl
  have h2 : (newField now page type).maxWidth = none := rfl
  have h3 : (newField now page type).minWidth = none := rfl
  have h4 : (newField now page type).maxHeight = none := rfl
  have h5 : (newField now page type).minHeight = none := rfl
  constructor
  · simp only [FormField.handleMouseMove, FormField.handleMouseDown, if_true, h1, h2, h3, h4,
      h5, JSNumber.toNumber_none, JSNumber.min2_nan, JSNumber.max2_nan, reduceCtorEq,
      if_false]
  · intro lo hi
    cases hlo : JSNumber.toNumber lo <;> cases hhi : JSNumber.toNumber hi <;>
      simp [inRange, JSNumber.toNumber, JSNumber.le, hlo, hhi]

/-- Witness of C5: a text field just added, a press on its resize handle, scale 1, the
pointer at (50, 30): the proposed size is `NaN` by `NaN`. -/
theorem handleMouseMove_unlimited_gives_nan_witness :
    FormField.handleMouseMove (newField 1 1 "text") 1
        (FormField.handleMouseDown (newField 1 1 "text")
          { (⟨false, some (.num 200), some (.num 20), none⟩ : FormFieldState) with
            fieldRef := some (0, 0) } true) ⟨50, 30⟩
      = some { newField 1 1 "text" with width := some .nan, height := some .nan } :=
  (handleMouseMove_unlimited_gives_nan 1 1 "text" 1
    ⟨false, some (.num 200), some (.num 20), none⟩ 0 0 ⟨50, 30⟩).1

/-- C9: with the lock on, `handleMouseMove` derives the height from the pointer width
before that width is clamped, and then clamps width and height each on its own, so the
ratio is lost. For a field of size `(w0, h0)`, `w0 > 0`, `h0 > 0`, whose resize gesture
has just started (the captured size is the size of the field), scale `s > 0` and a pointer
beyond `maxWidth` whose derived height is within `[minHeight, maxHeight]`: the proposed
width is `maxWidth` and the proposed height is `(clientX - offsetLeft) / s * h0 / w0`,
which is more than `maxWidth * h0 / w0`. Nor is the ratio that of the gesture start after
the first step: the effect of lines 10 to 13 replaces the captured size by the size just
proposed. Once the 100 by 100 square has become 100 by 200, a move to 50 right of the
anchor proposes 50 by 100. -/
theorem handleMouseMove_lock_loses_ratio (field : Field) (scale : ℚ) (ui : FormFieldState)
    (e : MouseEvent) (offsetLeft offsetTop w0 h0 a b c d : ℚ)
    (hscale : 0 < scale) (href : ui.fieldRef = some (offsetLeft, offsetTop))
    (hlock : field.maintainAspectRatio = some true)
    (hw0 : field.width = some (.num w0)) (hh0 : field.height = some (.num h0))
    (hwpos : 0 < w0) (hhpos : 0 < h0)
    (hminW : field.minWidth = some (.num a)) (hmaxW : field.maxWidth = some (.num b))
    (hminH : field.minHeight = some (.num c)) (hmaxH : field.maxHeight = some (.num d))
    (hab : a ≤ b) (hover : b < (e.clientX - offsetLeft) / scale)
    (hc : c ≤ (e.clientX - offsetLeft) / scale * h0 / w0)
    (hd : (e.clientX - offsetLeft) / scale * h0 / w0 ≤ d) :
    ∃ r, FormField.handleMouseMove field scale (FormField.handleMouseDown field ui true) e
        = some r ∧
      r.width = some (.num b) ∧
      r.height = some (.num ((e.clientX - offsetLeft) / scale * h0 / w0)) ∧
      b * h0 / w0 < (e.clientX - offsetLeft) / scale * h0 / w0 ∧
      FormField.handleMouseMove
          { lockedSquare with width := some (.num 100), height := some (.num 200) } 1
          (FormField.syncInitialSize
            { lockedSquare with width := some (.num 100), height := some (.num 200) }
            (FormField.handleMouseDown lockedSquare ⟨false, none, none, some (0, 0)⟩ true))
          ⟨50, 30⟩
        = some { lockedSquare with width := some (.num 50), height := some (.num 100) } := by
  have hs : scale ≠ 0 := ne_of_gt hscale
  have hw : w0 ≠ 0 := ne_of_gt hwpos
  have hh : h0 ≠ 0 := ne_of_gt hhpos
  have hne : w0 / h0 ≠ 0 := div_ne_zero hw hh
  have e1 : (e.clientX - offsetLeft) / (w0 / h0) / scale =
      (e.clientX - offsetLeft) / scale * h0 / w0 := by
    rw [div_div_eq_mul_div, div_div, div_mul_eq_mul_div, div_div, mul_comm w0 scale]
  have hderived : JSNumber.num (e.clientX - offsetLeft) /
      (JSNumber.num w0 / JSNumber.num h0) / JSNumber.num scale =
      JSNumber.num ((e.clientX - offsetLeft) / scale * h0 / w0) := by
    rw [JSNumber.num_div_num _ _ hh, JSNumber.num_div_num _ _ hne, JSNumber.num_div_num _ _ hs,
      e1]
  have hwidth : JSNumber.max2
      (JSNumber.min2 (.num ((e.clientX - offsetLeft) / scale)) (.num b)) (.num a) = .num b := by
    simp only [JSNumber.min2, JSNumber.max2, min_eq_right (le_of_lt hover), max_eq_left hab]
  have hheight : JSNumber.max2
      (JSNumber.min2 (.num ((e.clientX - offsetLeft) / scale * h0 / w0)) (.num d)) (.num c)
      = .num ((e.clientX - offsetLeft) / scale * h0 / w0) := by
    simp only [JSNumber.min2, JSNumber.max2, min_eq_left hd, max_eq_left hc]
  have hcalc : FormField.handleMouseMove field scale (FormField.handleMouseDown field ui true) e
      = some { field with
          width := some (.num b)
          height := some (.num ((e.clientX - offsetLeft) / scale * h0 / w0)) } := by
    simp only [FormField.handleMouseMove, FormField.handleMouseDown, if_true, href, hlock, hw0,
      hh0, hminW, hmaxW, hminH, hmaxH, JSNumber.toNumber_some, hderived,
      JSNumber.num_div_num _ _ hs, hwidth, hheight]
  refine ⟨_, hcalc, rfl, rfl, ?_, ?_⟩
  · have hratio : 0 < h0 / w0 := div_pos hhpos hwpos
    have := mul_lt_mul_of_pos_right hover hratio
    rw [mul_div_assoc, mul_div_assoc]
    exact this
  · simp [FormField.handleMouseMove, FormField.syncInitialSize, FormField.handleMouseDown,
      lockedSquare, limitedField, JSNumber.num_div_num, JSNumber.min2, JSNumber.max2]
    norm_num

/-- Witness of C9: the 100 by 100 locked square with limits 10..100 by 10..500, a press on
its resize handle, scale 1, the pointer 200 right of the anchor: the proposal is 100 wide
and 200 high. -/
theorem handleMouseMove_lock_loses_ratio_witness :
    ∃ r, FormField.handleMouseMove lockedSquare 1
        (FormField.handleMouseDown lockedSquare ⟨false, none, none, some (0, 0)⟩ true)
        ⟨200, 30⟩ = some r ∧
      r.width = some (.num 100) ∧
      r.height = some (.num ((200 - 0) / 1 * 100 / 100)) ∧
      (100 : ℚ) * 100 / 100 < (200 - 0) / 1 * 100 / 100 :=
  let ⟨r, h1, h2, h3, h4, _⟩ :=
    handleMouseMove_lock_loses_ratio lockedSquare 1 ⟨false, none, none, some (0, 0)⟩ ⟨200, 30⟩
      0 0 100 100 10 100 10 500 (by norm_num) rfl rfl rfl rfl (by norm_num) (by norm_num)
      rfl rfl rfl rfl (by norm_num) (by norm_num) (by norm_num) (by norm_num)
  ⟨r, h1, h2, h3, h4⟩

/-- C6: while no document is loaded (`canvasRef.current` is null) every drop makes
`handleDrop` throw a `TypeError`, whatever the payload: `calculatePosition` runs before
the `try` block. With the canvas mounted, a drop whose payload is empty or does not parse
returns normally and leaves the state, and so the field list, as it was. -/
theorem handleDrop_throws_without_canvas (parse : String → Except JSError Parsed)
    (w : Window) (st : EditorState) (e : DropEvent) :
    handleDrop parse w { st with canvasRef := none } e = .error .typeError ∧
    (∀ rect : DOMRect,
      handleDrop parse w { st with canvasRef := some rect } { e with fieldData := "" } =
        .ok { st with canvasRef := some rect }) ∧
    (∀ (rect : DOMRect) (err : JSError), parse e.fieldData = .error err →
      handleDrop parse w { st with canvasRef := some rect } e =
        .ok { st with canvasRef := some rect }) := by
  refine ⟨?_, ?_, ?_⟩
  · simp [handleDrop, calculatePosition]
  · intro rect
    simp [handleDrop, calculatePosition]
  · intro rect err herr
    by_cases hempty : e.fieldData = ""
    · simp [handleDrop, calculatePosition, hempty]
    · simp [handleDrop, calculatePosition, hempty, herr]

/-- Witness of C6: the initial state (no document, empty store) and a drop at (0, 0)
that carries no payload; the parser rejects every string. -/
theorem handleDrop_throws_without_canvas_witness :
    handleDrop (fun _ => .error .syntaxError) ⟨0, 0, 0, 0⟩
      ⟨none, 1, 1, [], none, (.num 0, .num 0)⟩ ⟨0, 0, ""⟩ = .error .typeError :=
  (handleDrop_throws_without_canvas (fun _ => .error .syntaxError) ⟨0, 0, 0, 0⟩
    ⟨none, 1, 1, [], none, (.num 0, .num 0)⟩ ⟨0, 0, ""⟩).1

/-- C8: with the canvas mounted, scale `s > 0`, stored drag offset `(ox, oy)` and a payload
that parses to a record with id `i`, `handleDrop` returns a store of the same length and
order in which every record with id `i` has `x = (cx + scrollLeft - left)/s - ox/s` and
`y = (cy + scrollTop - top)/s - oy/s` and is otherwise unchanged, and every record with
another id is unchanged. -/
theorem handleDrop_moves_only_dragged (parse : String → Except JSError Parsed)
    (w : Window) (st : EditorState) (e : DropEvent) (rect : DOMRect) (ox oy : ℚ) (i : Int)
    (hscale : 0 < st.scale) (hcanvas : st.canvasRef = some rect)
    (hoffset : st.dragOffset = (.num ox, .num oy))
    (hdata : e.fieldData ≠ "") (hparse : parse e.fieldData = .ok (.value (some i))) :
    ∃ st', handleDrop parse w st e = .ok st' ∧
      st'.fields.length = st.fields.length ∧
      ∀ k : Nat, st'.fields[k]? = (st.fields[k]?).map fun f =>
        if f.id = i then
          { f with
            x := some (.num ((e.clientX + jsOr w.pageXOffset w.docScrollLeft - rect.left)
              / st.scale - ox / st.scale))
            y := some (.num ((e.clientY + jsOr w.pageYOffset w.docScrollTop - rect.top)
              / st.scale - oy / st.scale)) }
        else f := by
  have hs : st.scale ≠ 0 := ne_of_gt hscale
  refine ⟨{ st with fields := st.fields.map fun f =>
      if f.id = i then
        { f with
          x := some (.num ((e.clientX + jsOr w.pageXOffset w.docScrollLeft - rect.left)
            / st.scale - ox / st.scale))
          y := some (.num ((e.clientY + jsOr w.pageYOffset w.docScrollTop - rect.top)
            / st.scale - oy / st.scale)) }
      else f }, ?_, ?_, ?_⟩
  · simp only [handleDrop, calculatePosition, hcanvas, hoffset, hdata, if_false, hparse,
      JSNumber.num_div_num _ _ hs, JSNumber.num_sub_num, Option.some.injEq]
  · simp
  · intro k
    simp

/-- Witness of C8: two stored records with ids 1 and 2, scale 2, viewer origin (10, 20),
drag offset (4, 6), a drop at (110, 220) of the record with id 1. -/
theorem handleDrop_moves_only_dragged_witness :
    ∃ st', handleDrop (fun _ => .ok (.value (some 1))) ⟨0, 0, 0, 0⟩
        ⟨some ⟨10, 20⟩, 2, 1, [newField 1 1 "text", newField 2 1 "number"], none,
          (.num 4, .num 6)⟩ ⟨110, 220, "payload"⟩ = .ok st' ∧
      st'.fields.length = 2 ∧
      ∀ k : Nat, st'.fields[k]? =
        ([newField 1 1 "text", newField 2 1 "number"][k]?).map fun f =>
          if f.id = 1 then
            { f with
              x := some (.num ((110 + jsOr 0 0 - 10) / 2 - 4 / 2))
              y := some (.num ((220 + jsOr 0 0 - 20) / 2 - 6 / 2)) }
          else f :=
  handleDrop_moves_only_dragged (fun _ => .ok (.value (some 1))) ⟨0, 0, 0, 0⟩
    ⟨some ⟨10, 20⟩, 2, 1, [newField 1 1 "text", newField 2 1 "number"], none,
      (.num 4, .num 6)⟩ ⟨110, 220, "payload"⟩ ⟨10, 20⟩ 4 6 1
    (by norm_num) rfl rfl (by decide) rfl

/-- C10: with grid snap off `handleAlign` proposes a replacement whose `y` is undefined,
not the field's `y`: `newY` is only assigned in the snap branch. The rest of the claim
holds: `x` is 0, `(W - w) / 2` or `W - w`; with snap on and grid size `g > 0`, `x` and
the field's `y` are each moved to a multiple of `g` at distance at most `g / 2`; every
attribute other than `x` and `y` is kept. -/
theorem handleAlign_snap_off_loses_y (field : Field) (parentWidth gridSize : JSNumber)
    (alignment : String) :
    (FormField.handleAlign field false parentWidth gridSize alignment).y = none ∧
    (∀ snap : Bool,
      { FormField.handleAlign field snap parentWidth gridSize alignment with
        x := field.x, y := field.y } = field) ∧
    (∀ w W : ℚ, field.width = some (.num w) →
      (FormField.handleAlign field false (.num W) gridSize "left").x = some (.num 0) ∧
      (FormField.handleAlign field false (.num W) gridSize "center").x
        = some (.num ((W - w) / 2)) ∧
      (FormField.handleAlign field false (.num W) gridSize "right").x
        = some (.num (W - w))) ∧
    (∀ w W g y : ℚ, 0 < g → field.width = some (.num w) → field.y = some (.num y) →
      (∃ k : ℤ, (FormField.handleAlign field true (.num W) (.num g) "left").x
          = some (.num (k * g)) ∧ |(k : ℚ) * g - 0| ≤ g / 2) ∧
      (∃ k : ℤ, (FormField.handleAlign field true (.num W) (.num g) "center").x
          = some (.num (k * g)) ∧ |(k : ℚ) * g - (W - w) / 2| ≤ g / 2) ∧
      (∃ k : ℤ, (FormField.handleAlign field true (.num W) (.num g) "right").x
          = some (.num (k * g)) ∧ |(k : ℚ) * g - (W - w)| ≤ g / 2) ∧
      (∀ a : String, ∃ k : ℤ, (FormField.handleAlign field true (.num W) (.num g) a).y
          = some (.num (k * g)) ∧ |(k : ℚ) * g - y| ≤ g / 2)) := by
  refine ⟨rfl, fun snap => rfl, ?_, ?_⟩
  · intro w W hw
    refine ⟨?_, ?_, ?_⟩
    · simp [FormField.handleAlign]
    · simp [FormField.handleAlign, hw, JSNumber.num_sub_num, JSNumber.num_div_num]
    · simp [FormField.handleAlign, hw, JSNumber.num_sub_num]
  · intro w W g y hg hw hy
    refine ⟨?_, ?_, ?_, ?_⟩
    · refine ⟨⌊(0 : ℚ) / g + 1 / 2⌋, ?_, (JSNumber.round_snap 0 g hg).2⟩
      simp only [FormField.handleAlign, if_true, JSNumber.toNumber_some,
        (JSNumber.round_snap 0 g hg).1]
    · refine ⟨⌊(W - w) / 2 / g + 1 / 2⌋, ?_, (JSNumber.round_snap _ g hg).2⟩
      simp only [FormField.handleAlign, if_true, JSNumber.toNumber_some, hw,
        JSNumber.num_sub_num, JSNumber.num_div_num _ _ (two_ne_zero),
        (JSNumber.round_snap ((W - w) / 2) g hg).1]
    · refine ⟨⌊(W - w) / g + 1 / 2⌋, ?_, (JSNumber.round_snap _ g hg).2⟩
      simp only [FormField.handleAlign, if_true, JSNumber.toNumber_some, hw,
        JSNumber.num_sub_num, (JSNumber.round_snap (W - w) g hg).1]
    · intro a
      refine ⟨⌊y / g + 1 / 2⌋, ?_, (JSNumber.round_snap _ g hg).2⟩
      simp only [FormField.handleAlign, if_true, JSNumber.toNumber_some, hy,
        (JSNumber.round_snap y g hg).1]

/-- Witness of C10: a freshly added text field, at (100, 100), aligned left in a
container 600 wide with grid snap off: the proposed `y` is undefined. -/
theorem handleAlign_snap_off_loses_y_witness :
    (newField 1 1 "text").y = some (.num 100) ∧
    (FormField.handleAlign (newField 1 1 "text") false (.num 600) (.num 10) "left").y = none :=
  ⟨rfl, (handleAlign_snap_off_loses_y (newField 1 1 "text") (.num 600) (.num 10) "left").1⟩

/-- C7: the distribution handlers of `FormField.jsx` propose nothing: their first
statement reads the identifier `fields`, which nothing in the file binds, so each call
throws a `ReferenceError`, whatever is selected. What the rest of the body computes is
what the claim says. Were `fields` bound to the store, then with grid snap off: at most
one selected field gives no replacement; with `n ≥ 2`, `lo` the least `x` and `hi` the
greatest `x + width` among the selected fields, the replacement for the `i`-th is that
field with only `x` changed and its centre `x + width / 2` at
`lo + i * (hi - lo) / (n - 1)`; the vertical handler does the same with `y` and `height`;
two fields at `x = 0` and `x = 300`, each 100 wide, would get `x = -50` and `x = 350`. -/
theorem distribute_throws_reference_error (fields : List Field) (snapToGrid : Bool)
    (gridSize : JSNumber) :
    FormField.handleDistributeHorizontally FormField.fieldsInScope snapToGrid gridSize
      = .error .referenceError ∧
    FormField.handleDistributeVertically FormField.fieldsInScope snapToGrid gridSize
      = .error .referenceError ∧
    ((fields.filter fun f => decide (f.isSelected = some true)).length ≤ 1 →
      FormField.handleDistributeHorizontally (some fields) false gridSize = .ok [] ∧
      FormField.handleDistributeVertically (some fields) false gridSize = .ok []) ∧
    (∀ (P S : Field → ℚ) (lo hi : ℚ),
      2 ≤ (fields.filter fun f => decide (f.isSelected = some true)).length →
      (∀ f ∈ (fields.filter fun f => decide (f.isSelected = some true)), f.x = some (.num (P f)) ∧ f.width = some (.num (S f))) →
      (∃ f ∈ (fields.filter fun f => decide (f.isSelected = some true)), P f = lo) → (∀ f ∈ (fields.filter fun f => decide (f.isSelected = some true)), lo ≤ P f) →
      (∃ f ∈ (fields.filter fun f => decide (f.isSelected = some true)), P f + S f = hi) → (∀ f ∈ (fields.filter fun f => decide (f.isSelected = some true)), P f + S f ≤ hi) →
      ∃ out : List Field,
        FormField.handleDistributeHorizontally (some fields) false gridSize = .ok out ∧
        out.length = (fields.filter fun f => decide (f.isSelected = some true)).length ∧
        ∀ (i : ℕ) (f : Field), (fields.filter fun f => decide (f.isSelected = some true))[i]? = some f →
          ∃ p : ℚ, out[i]? = some { f with x := some (.num p) } ∧
            p + S f / 2 = lo + (i : ℚ) * ((hi - lo) / (((fields.filter fun f => decide (f.isSelected = some true)).length : ℚ) - 1))) ∧
    (∀ (P S : Field → ℚ) (lo hi : ℚ),
      2 ≤ (fields.filter fun f => decide (f.isSelected = some true)).length →
      (∀ f ∈ (fields.filter fun f => decide (f.isSelected = some true)), f.y = some (.num (P f)) ∧ f.height = some (.num (S f))) →
      (∃ f ∈ (fields.filter fun f => decide (f.isSelected = some true)), P f = lo) → (∀ f ∈ (fields.filter fun f => decide (f.isSelected = some true)), lo ≤ P f) →
      (∃ f ∈ (fields.filter fun f => decide (f.isSelected = some true)), P f + S f = hi) → (∀ f ∈ (fields.filter fun f => decide (f.isSelected = some true)), P f + S f ≤ hi) →
      ∃ out : List Field,
        FormField.handleDistributeVertically (some fields) false gridSize = .ok out ∧
        out.length = (fields.filter fun f => decide (f.isSelected = some true)).length ∧
        ∀ (i : ℕ) (f : Field), (fields.filter fun f => decide (f.isSelected = some true))[i]? = some f →
          ∃ p : ℚ, out[i]? = some { f with y := some (.num p) } ∧
            p + S f / 2 = lo + (i : ℚ) * ((hi - lo) / (((fields.filter fun f => decide (f.isSelected = some true)).length : ℚ) - 1))) ∧
    FormField.handleDistributeHorizontally
        (some [selectedAt 1 0 0 100 20, selectedAt 2 300 0 100 20]) false gridSize =
      .ok [{ selectedAt 1 0 0 100 20 with x := some (.num (-50)) },
           { selectedAt 2 300 0 100 20 with x := some (.num 350) }] := by
  refine ⟨rfl, rfl, ?_, ?_, ?_, ?_⟩
  · intro h
    simp [FormField.handleDistributeHorizontally, FormField.handleDistributeVertically, h]
  · intro P S lo hi hn hnum hlo hlole hhi hhile
    refine ⟨_, distributeH_core fields gridSize P S lo hi hn hnum hlo hlole hhi hhile,
      List.length_mapIdx, ?_⟩
    intro i f hi'
    refine ⟨lo + (i : ℚ) * ((hi - lo) / (((fields.filter fun f => decide (f.isSelected = some true)).length : ℚ) - 1)) - S f / 2, ?_, by ring⟩
    rw [List.getElem?_mapIdx, hi']
    rfl
  · intro P S lo hi hn hnum hlo hlole hhi hhile
    refine ⟨_, distributeV_core fields gridSize P S lo hi hn hnum hlo hlole hhi hhile,
      List.length_mapIdx, ?_⟩
    intro i f hi'
    refine ⟨lo + (i : ℚ) * ((hi - lo) / (((fields.filter fun f => decide (f.isSelected = some true)).length : ℚ) - 1)) - S f / 2, ?_, by ring⟩
    rw [List.getElem?_mapIdx, hi']
    rfl
  · have hsel : ([selectedAt 1 0 0 100 20, selectedAt 2 300 0 100 20].filter
        fun f => decide (f.isSelected = some true)) =
        [selectedAt 1 0 0 100 20, selectedAt 2 300 0 100 20] := by
      simp [selectedAt]
    rw [distributeH_core _ gridSize (fun f => if f.id = 1 then 0 else 300) (fun _ => 100) 0 400
      (by rw [hsel]; simp) (by rw [hsel]; simp [selectedAt, newField, baseField, Field.spread])
      (by rw [hsel]; simp [selectedAt, newField, baseField, Field.spread])
      (by rw [hsel]; intro f hf; positivity)
      (by rw [hsel]; simp [selectedAt, newField, baseField, Field.spread]; norm_num)
      (by rw [hsel]; intro f hf; dsimp only; split_ifs <;> norm_num)]
    rw [hsel]
    simp [List.mapIdx_cons]
    norm_num

/-- Witness of C7: a `FormField` of the store of two fields at `x = 0` and `x = 300`, with
grid snap off and grid size 10: the horizontal handler throws. -/
theorem distribute_throws_reference_error_witness :
    FormField.handleDistributeHorizontally FormField.fieldsInScope false (.num 10)
      = .error .referenceError :=
  (distribute_throws_reference_error
    [selectedAt 1 0 0 100 20, selectedAt 2 300 0 100 20] false (.num 10)).1

/-- Witness of C4: replacing the record with id 1 in a store of two. -/
theorem updateField_replaces_by_id_witness :
    (updateField ⟨none, 1, 1, [newField 1 1 "text", newField 2 1 "number"], none,
      (.num 0, .num 0)⟩ (selectedAt 1 5 5 50 20)).selectedField
      = some (selectedAt 1 5 5 50 20) :=
  (updateField_replaces_by_id
    ⟨none, 1, 1, [newField 1 1 "text", newField 2 1 "number"], none, (.num 0, .num 0)⟩
    (selectedAt 1 5 5 50 20)).2.2.1

/-- C12: starting from the initial scale 1, after every finite sequence of zoom clicks the
scale lies between 1/2 and 2, and the stored fields are the ones before the clicks. -/
theorem zoom_stays_in_range (st : EditorState) (clicks : List Bool) (hinit : st.scale = 1) :
    1 / 2 ≤ (zoomClicks st clicks).scale ∧ (zoomClicks st clicks).scale ≤ 2 ∧
      (zoomClicks st clicks).fields = st.fields :=
  zoomClicks_bounds clicks st (by rw [hinit]; norm_num) (by rw [hinit]; norm_num)

/-- Witness of C12: the initial state, then `+`, `-`, `-`. -/
theorem zoom_stays_in_range_witness :
    1 / 2 ≤ (zoomClicks initialState [true, false, false]).scale ∧
      (zoomClicks initialState [true, false, false]).scale ≤ 2 ∧
      (zoomClicks initialState [true, false, false]).fields = initialState.fields :=
  zoom_stays_in_range initialState [true, false, false] rfl

/-- C15: a drag that starts and ends at the same client point moves the field by the page
scroll offset divided by the scale: `calculatePosition` adds the scroll offset to a point
that it then takes relative to a viewport rectangle. With the canvas at `rect`, the field
at `(x, y)` rendered at `(rect.left + x * s, rect.top + y * s)`, and `s > 0`, every record
with the id of the dragged field ends at `(x + scrollLeft / s, y + scrollTop / s)`. -/
theorem same_point_drag_shifts_by_scroll (json : JSONLib) (w : Window) (st : EditorState)
    (field : Field) (rect : DOMRect) (x y cx cy : ℚ) (payload : String)
    (hscale : 0 < st.scale) (hcanvas : st.canvasRef = some rect)
    (hx : field.x = some (.num x)) (hy : field.y = some (.num y))
    (hpayload : (FormField.handleDragStart json.stringify field st.scale
      ⟨rect.left + x * st.scale, rect.top + y * st.scale⟩ cx cy).fieldData = payload)
    (hdata : payload ≠ "") (hparse : json.parse payload = .ok (.value (some field.id))) :
    (FormField.style field st.scale).left = .num (x * st.scale) ∧
    (FormField.style field st.scale).top = .num (y * st.scale) ∧
    (run json st
      [.dragStart field ⟨rect.left + x * st.scale, rect.top + y * st.scale⟩ cx cy,
       .drop w ⟨cx, cy, payload⟩]).fields =
      st.fields.map fun g =>
        if g.id = field.id then
          { g with
            x := some (.num (x + jsOr w.pageXOffset w.docScrollLeft / st.scale))
            y := some (.num (y + jsOr w.pageYOffset w.docScrollTop / st.scale)) }
        else g := by
  have hs : st.scale ≠ 0 := ne_of_gt hscale
  have _hp := hpayload
  have ex : (cx + jsOr w.pageXOffset w.docScrollLeft - rect.left) / st.scale -
      (cx - (rect.left + x * st.scale)) / st.scale * st.scale / st.scale =
      x + jsOr w.pageXOffset w.docScrollLeft / st.scale := by
    field_simp
    ring
  have ey : (cy + jsOr w.pageYOffset w.docScrollTop - rect.top) / st.scale -
      (cy - (rect.top + y * st.scale)) / st.scale * st.scale / st.scale =
      y + jsOr w.pageYOffset w.docScrollTop / st.scale := by
    field_simp
    ring
  refine ⟨?_, ?_, ?_⟩
  · simp [FormField.style, hx, JSNumber.num_mul_num]
  · simp [FormField.style, hy, JSNumber.num_mul_num]
  · simp only [run, List.foldl, step, handleDragStart, FormField.handleDragStart, handleDrop,
      calculatePosition, hcanvas, hdata, if_false, hparse, JSNumber.num_div_num _ _ hs,
      JSNumber.num_mul_num, JSNumber.num_sub_num, Option.some.injEq, ex, ey]

/-- Witness of C15: canvas at (272, 16), scale 1, the page scrolled down by 50, a text
field at (100, 100) grabbed and released at the client point (380, 120): its stored `y`
becomes 150. -/
theorem same_point_drag_shifts_by_scroll_witness :
    (run exampleJSON ⟨some ⟨272, 16⟩, 1, 1, [newField 1 1 "text"], none, (.num 0, .num 0)⟩
      [.dragStart (newField 1 1 "text") ⟨272 + 100 * 1, 16 + 100 * 1⟩ 380 120,
       .drop ⟨0, 50, 0, 0⟩ ⟨380, 120, "payload"⟩]).fields =
      [{ newField 1 1 "text" with x := some (.num 100), y := some (.num 150) }] := by
  have h := (same_point_drag_shifts_by_scroll exampleJSON ⟨0, 50, 0, 0⟩
    ⟨some ⟨272, 16⟩, 1, 1, [newField 1 1 "text"], none, (.num 0, .num 0)⟩
    (newField 1 1 "text") ⟨272, 16⟩ 100 100 380 120 "payload"
    (by norm_num) rfl rfl rfl rfl (by decide) rfl).2.2
  rw [h]
  simp [jsOr, newField, baseField, Field.spread]
  norm_num

/-- C14: after add, drag and drop the selection is out of date. The stored record is at
(220, 300) while the selection still is the record as created, at (100, 100), so the
store holds no record equal to the selection; a Label edit in the properties editor then
writes the selection back and the field returns to (100, 100). `updateField`, by
contrast, makes the replacement the selection, so store and selection agree after it. -/
theorem drop_leaves_selection_stale :
    (run exampleJSON initialState dragSession).fields =
      [{ newField 1 1 "text" with x := some (.num 220), y := some (.num 300) }] ∧
    (run exampleJSON initialState dragSession).selectedField = some (newField 1 1 "text") ∧
    newField 1 1 "text" ∉ (run exampleJSON initialState dragSession).fields ∧
    (PropertiesPanel.onLabelChange (run exampleJSON initialState dragSession) "Name").fields =
      [{ newField 1 1 "text" with label := "Name" }] ∧
    (∀ (st : EditorState) (r : Field), (∃ f ∈ st.fields, f.id = r.id) →
      r ∈ (updateField st r).fields ∧ (updateField st r).selectedField = some r) := by
  have hfields : (run exampleJSON initialState dragSession).fields =
      [{ newField 1 1 "text" with x := some (.num 220), y := some (.num 300) }] := by
    simp [run, dragSession, step, initialState, addField, handleDragStart,
      FormField.handleDragStart, handleDrop, calculatePosition, exampleJSON, jsOr,
      JSNumber.num_div_num, JSNumber.num_mul_num, JSNumber.num_sub_num, newField, baseField,
      Field.spread]
    norm_num
  have hsel : (run exampleJSON initialState dragSession).selectedField =
      some (newField 1 1 "text") := by
    simp [run, dragSession, step, initialState, addField, handleDragStart,
      FormField.handleDragStart, handleDrop, calculatePosition, exampleJSON]
  refine ⟨hfields, hsel, ?_, ?_, ?_⟩
  · rw [hfields]
    simp [newField, baseField, Field.spread]
  · simp only [PropertiesPanel.onLabelChange, hsel, updateField, hfields]
    simp [newField, baseField, Field.spread]
  · intro st r hr
    obtain ⟨f, hf, hfid⟩ := hr
    refine ⟨?_, rfl⟩
    simp only [updateField, List.mem_map]
    exact ⟨f, hf, by simp [hfid]⟩

/-- C13, as stated, fails: `Date.now()` can read a value that a stored record already has
as its id (two adds within one millisecond). In the store that holds one record with id 1
the ids are distinct; an add while the clock reads 1 gives the new record the id 1 too. -/
theorem addField_id_counterexample :
    ([newField 1 1 "text"].map Field.id).Nodup ∧
    (newField 1 1 "number").id ∈ [newField 1 1 "text"].map Field.id ∧
    (addField 1 ⟨none, 1, 1, [newField 1 1 "text"], none, (.num 0, .num 0)⟩ "number").fields.map
      Field.id = [1, 1] ∧
    ¬ ((addField 1 ⟨none, 1, 1, [newField 1 1 "text"], none, (.num 0, .num 0)⟩
      "number").fields.map Field.id).Nodup := by
  refine ⟨?_, ?_, ?_, ?_⟩
  · simp
  · simp [newField, baseField, Field.spread]
  · simp [addField, newField, baseField, Field.spread]
  · simp [addField, newField, baseField, Field.spread]

/-- C13, amended: when every add happens at a clock reading that no stored record has as
its id, the ids are pairwise distinct in every state reachable from the initial state by
add, update, delete and drop (and by selecting, zooming and starting a drag); in such a
state an add at a fresh reading gives the new record an id that no stored record has. -/
theorem ids_stay_distinct (json : JSONLib) (st : EditorState)
    (hreach : Reachable json clockIsFresh st) :
    (st.fields.map Field.id).Nodup ∧
    (∀ (now : Int) (type : String), now ∉ st.fields.map Field.id →
      (∀ f ∈ st.fields, f.id ≠ (newField now st.currentPage type).id) ∧
      ((addField now st type).fields.map Field.id).Nodup) := by
  have hnodup : (st.fields.map Field.id).Nodup := by
    induction hreach with
    | init => simp [initialState]
    | step st a _ hallowed ih => exact step_keeps_ids_distinct json st a hallowed ih
  refine ⟨hnodup, ?_⟩
  intro now type hnow
  constructor
  · intro f hf hid
    apply hnow
    have hnew : (newField now st.currentPage type).id = now := rfl
    rw [← hnew, ← hid]
    exact List.mem_map_of_mem Field.id hf
  · exact step_keeps_ids_distinct json st (.add now type) hnow hnodup

/-- Witness of C13 (amended): adds at the clock readings 1 and 2, then a deletion. -/
theorem ids_stay_distinct_witness :
    ((step exampleJSON (step exampleJSON (step exampleJSON initialState (.add 1 "text"))
      (.add 2 "number")) (.delete 1)).fields.map Field.id).Nodup :=
  (ids_stay_distinct exampleJSON _
    (Reachable.step _ (.delete 1)
      (Reachable.step _ (.add 2 "number")
        (Reachable.step _ (.add 1 "text") Reachable.init
          (by simp [clockIsFresh, initialState]))
        (by simp [clockIsFresh, initialState, step, addField, newField, baseField,
          Field.spread]))
      trivial)).1

/-- C11, as stated, fails: nothing keeps positions and sizes non-negative. Loading a
document, adding a text field, grabbing it 150 right of its left edge and dropping it 10
right of the canvas edge stores `x = -140`; typing -5 into the Position X input of a
freshly added field stores `x = -5`. -/
theorem nonNegative_counterexample :
    (run exampleJSON initialState
      [.mountCanvas ⟨272, 16⟩, .add 1 "text",
       .dragStart (newField 1 1 "text") ⟨372, 116⟩ 522 126,
       .drop ⟨0, 0, 0, 0⟩ ⟨282, 126, "payload"⟩]).fields =
      [{ newField 1 1 "text" with x := some (.num (-140)), y := some (.num 100) }] ∧
    Field.nonNegative
      { newField 1 1 "text" with x := some (.num (-140)), y := some (.num 100) } = false ∧
    (PropertiesPanel.onXChange (addField 1 initialState "text") (.num (-5))).fields =
      [{ newField 1 1 "text" with x := some (.num (-5)) }] ∧
    Field.nonNegative { newField 1 1 "text" with x := some (.num (-5)) } = false := by
  refine ⟨?_, ?_, ?_, ?_⟩
  · simp [run, step, initialState, addField, handleDragStart,
      FormField.handleDragStart, handleDrop, calculatePosition, exampleJSON, jsOr,
      JSNumber.num_div_num, JSNumber.num_mul_num, JSNumber.num_sub_num, newField, baseField,
      Field.spread]
    norm_num
  · simp [Field.nonNegative, JSNumber.le]
  · simp [PropertiesPanel.onXChange, addField, updateField, initialState, newField, baseField,
      Field.spread]
  · simp [Field.nonNegative, JSNumber.le]

/-- C11, amended: in every state reachable from the initial state (empty store) by adds of
a type other than `date`, by updates (from the properties editor, a resize or a
distribution) whose replacement has `x`, `y`, `width` and `height` non-negative, by drops
whose point relative to the canvas is not less than the stored drag offset, and by any
deletion, selection, zoom or drag start, every field has `x ≥ 0`, `y ≥ 0`, `width ≥ 0`
and `height ≥ 0`. -/
theorem nonNegative_under_admitted_inputs (json : JSONLib) (st : EditorState)
    (hreach : Reachable json keepsNonNegative st) :
    ∀ f ∈ st.fields, f.nonNegative = true := by
  have hinv : (∀ f ∈ st.fields, f.nonNegative = true) ∧ 0 < st.scale ∧
      ∃ ox oy : ℚ, st.dragOffset = (.num ox, .num oy) := by
    induction hreach with
    | init =>
      refine ⟨?_, ?_, ⟨0, 0, rfl⟩⟩
      · intro f hf
        simp [initialState] at hf
      · show (0 : ℚ) < 1
        norm_num
    | step st a _ hallowed ih =>
      exact step_keeps_nonNegative json st a hallowed ih.1 ih.2.1 ih.2.2
  exact hinv.1

/-- Witness of C11 (amended): a number field added when the clock reads 1, then moved to
(5, 5) with size 50 by 20 through an update. -/
theorem nonNegative_under_admitted_inputs_witness :
    (step exampleJSON (step exampleJSON initialState (.add 1 "number"))
      (.update (selectedAt 1 5 5 50 20))).fields.all Field.nonNegative = true :=
  List.all_eq_true.mpr
    (nonNegative_under_admitted_inputs exampleJSON _
      (Reachable.step _ (.update (selectedAt 1 5 5 50 20))
        (Reachable.step _ (.add 1 "number") Reachable.init (by simp [keepsNonNegative]))
        (by simp [keepsNonNegative, selectedAt, Field.nonNegative, JSNumber.le])))

end PdfFormBuilder
